import Mathlib

/-!
Verification of the animation-data validation engine of `src/presets/template.ts`
(the Zod-based schema file of the pf2e-graphics repository).

The development shallowly embeds the parsed-JSON data model, the Zod schemas
declared in the source (primitive string/number validators, the predicate
mini-language, the effect/sound/shape grammar, the animation-object grammar,
the token-images grammar), and the two exported operations
`validateAnimationData` and `getJSONSchema`.

Modelling conventions, chosen to match the JavaScript/Zod runtime:
* A parsed-JSON value is `JSON` below; objects are key/value sequences in
  insertion order with distinct keys (what `JSON.parse` produces and `for-in`
  iterates).  JSON numbers are modelled as `Int`: none of the verified
  properties depends on non-integral values.
* A Zod (sync) parse of one schema is modelled as a `ZRes`: the ordered list of
  issues it contributes, plus Zod's "aborted" (INVALID) flag, which decides
  whether chained `.refine`/`.superRefine` effects still run and how unions
  select their reported branch.  A parse succeeds exactly when it has no issues.
* `JSON.stringify` (used by the `uniqueItems` refinement) is modelled by
  `JSON.stringify` below, serialising object keys in insertion order, as the
  JavaScript builtin does.
-/

mutual
/-- Model of a parsed JSON value (`unknown` as produced by `JSON.parse`). -/
inductive JSON where
  | str (s : String)
  | num (n : Int)
  | bool (b : Bool)
  | null
  | arr (elems : JSONList)
  | obj (fields : JSONFields)
deriving DecidableEq
/-- A list of JSON values (array elements). -/
inductive JSONList where
  | nil
  | cons (head : JSON) (tail : JSONList)
deriving DecidableEq
/-- Object members in insertion order; models a JavaScript object, so keys are distinct. -/
inductive JSONFields where
  | nil
  | cons (key : String) (value : JSON) (tail : JSONFields)
deriving DecidableEq
end

/-- Conversion of a `JSONList` to an ordinary `List`. -/
def JSONList.toList : JSONList → List JSON
  | .nil => []
  | .cons x tl => x :: tl.toList

/-- Conversion of object members to an ordinary association `List`. -/
def JSONFields.toList : JSONFields → List (String × JSON)
  | .nil => []
  | .cons k v tl => (k, v) :: tl.toList

/-- Member lookup, `obj[name]`: first (hence, for a JS object, only) binding wins. -/
def JSONFields.find? : JSONFields → String → Option JSON
  | .nil, _ => none
  | .cons k v tl, name => if k == name then some v else tl.find? name

/-- Own enumerable keys in insertion order (what `for-in` iterates). -/
def JSONFields.keys : JSONFields → List String
  | .nil => []
  | .cons k _ tl => k :: tl.keys

/-- Length of a `JSONList`. -/
def JSONList.length (xs : JSONList) : Nat := xs.toList.length

/-- String escaping of `JSON.stringify` (quote and backslash; the inputs under
consideration contain no control characters). -/
def escapeChar (c : Char) : String :=
  if c = '"' then "\\\"" else if c = '\\' then "\\\\" else String.singleton c

/-- Escape a whole string body for `JSON.stringify`. -/
def escapeString (s : String) : String :=
  String.join (s.toList.map escapeChar)

mutual
/-- Model of the JavaScript builtin `JSON.stringify` (no spacing), which the
`uniqueItems` helper applies to every array element.  Object members are
serialised in insertion order, exactly as in JavaScript. -/
def JSON.stringify : JSON → String
  | .str s => "\"" ++ escapeString s ++ "\""
  | .num n => toString n
  | .bool b => if b then "true" else "false"
  | .null => "null"
  | .arr xs => "[" ++ JSONList.stringifySep xs ++ "]"
  | .obj fs => "\x7b" ++ JSONFields.stringifySep fs ++ "\x7d"
/-- Comma-separated serialisation of array elements. -/
def JSONList.stringifySep : JSONList → String
  | .nil => ""
  | .cons x .nil => JSON.stringify x
  | .cons x (.cons y tl) => JSON.stringify x ++ "," ++ JSONList.stringifySep (.cons y tl)
/-- Comma-separated serialisation of object members. -/
def JSONFields.stringifySep : JSONFields → String
  | .nil => ""
  | .cons k v .nil => "\"" ++ escapeString k ++ "\":" ++ JSON.stringify v
  | .cons k v (.cons k2 v2 tl) =>
      "\"" ++ escapeString k ++ "\":" ++ JSON.stringify v ++ ","
        ++ JSONFields.stringifySep (.cons k2 v2 tl)
end

/-- Same number of members on both sides (with distinct keys, `sameLength`
together with `subFields` gives mutual inclusion). -/
def JSONFields.sameLength (fs gs : JSONFields) : Bool :=
  fs.toList.length == gs.toList.length

mutual
/-- Structural (deep value) equality of JSON values: object members are compared
as unordered key/value collections, arrays in order.  This is the
"deep value-equal" notion of the specification (it is agnostic to the key
order inside objects, unlike `JSON.stringify`-based comparison). -/
def JSON.deepEqual : JSON → JSON → Bool
  | .str a, .str b => a == b
  | .num a, .num b => a == b
  | .bool a, .bool b => a == b
  | .null, .null => true
  | .arr xs, .arr ys => JSONList.deepEqualList xs ys
  | .obj fs, .obj gs => JSONFields.sameLength fs gs && JSONFields.subFields fs gs
  | _, _ => false
/-- Pointwise deep equality of two element lists. -/
def JSONList.deepEqualList : JSONList → JSONList → Bool
  | .nil, .nil => true
  | .cons x xs, .cons y ys => JSON.deepEqual x y && JSONList.deepEqualList xs ys
  | _, _ => false
/-- Every member of the first object occurs (by key, up to deep equality of the
value) in the second. -/
def JSONFields.subFields : JSONFields → JSONFields → Bool
  | .nil, _ => true
  | .cons k v tl, gs =>
      (match gs.find? k with
        | some w => JSON.deepEqual v w
        | none => false)
      && JSONFields.subFields tl gs
end

/-- Helper validation function `uniqueItems` of the source: an array passes when
the `Set` of the `JSON.stringify` images of its elements is as large as the
array, i.e. when no two elements have the same serialisation. -/
def uniqueItems (xs : JSONList) : Bool :=
  ((xs.toList.map JSON.stringify).dedup).length == xs.toList.length

/-- Helper validation function `nonEmpty` of the source: `for (const _key in obj)
return true` — the value has at least one own enumerable key.  Arrays enumerate
their indices, objects their keys; primitives enumerate nothing. -/
def jsonNonEmpty : JSON → Bool
  | .obj (.cons _ _ _) => true
  | .arr (.cons _ _) => true
  | _ => false

/-- JavaScript truthiness of a value read from an (already parsed) object member;
`none` is an absent member (`undefined`). -/
def truthy : Option JSON → Bool
  | none => false
  | some (.num n) => n != 0
  | some (.str s) => s != ""
  | some (.bool b) => b
  | some .null => false
  | some (.arr _) => true
  | some (.obj _) => true

/-- One element of a Zod issue path: an object key or an array index. -/
inductive PathElem where
  | key (k : String)
  | idx (i : Nat)
deriving DecidableEq

/-- A Zod issue: its `code` (e.g. `invalid_type`, `invalid_string`, `custom`,
`too_small`, `unrecognized_keys`), its `path` from the root of the validated
value, its human-readable `message`, and (for `invalid_type` issues) the
reported `received` type name. -/
structure Issue where
  code : String
  path : List PathElem
  message : String
  received : String
deriving DecidableEq

/-- Prepend one path element to an issue's path (Zod's path reconstruction). -/
def Issue.prefixWith (p : PathElem) (i : Issue) : Issue :=
  { i with path := p :: i.path }

/-- Result of one (sync) Zod parse: the issues contributed, in order, and
whether the parse was aborted (Zod's INVALID status, as opposed to a "dirty"
result).  Refinements and further effects run on a dirty result but not on an
aborted one, and unions report the first dirty alternative. -/
structure ZRes where
  aborted : Bool
  issues : List Issue
deriving DecidableEq

/-- The successful parse result. -/
def ZRes.ok : ZRes := ⟨false, []⟩

/-- A parse counts as valid exactly when it produced no issues (and was not
aborted); `safeParse(...).success` in Zod. -/
def ZRes.valid (r : ZRes) : Bool := !r.aborted && r.issues.isEmpty

/-- Prefix every issue of a result with a path element. -/
def ZRes.prefixWith (p : PathElem) (r : ZRes) : ZRes :=
  ⟨r.aborted, r.issues.map (Issue.prefixWith p)⟩

/-- A schema is modelled by the parse result it assigns to each JSON value. -/
abbrev Schema := JSON → ZRes

/-- Zod's `parsedType` name of a value (used in `invalid_type` issues). -/
def parsedTypeName : JSON → String
  | .str _ => "string"
  | .num _ => "number"
  | .bool _ => "boolean"
  | .null => "null"
  | .arr _ => "array"
  | .obj _ => "object"

/-- An aborting `invalid_type` issue, as Zod reports for a wrong-typed value. -/
def zInvalidType (expected : String) (j : JSON) : ZRes :=
  ⟨true, [⟨"invalid_type", [],
    "Expected " ++ expected ++ ", received " ++ parsedTypeName j, parsedTypeName j⟩]⟩

/-- Model of `z.string()` with a chain of checks (regex / min-length): a
non-string aborts; otherwise each failing check contributes one issue, in
order, and the result is dirty. -/
def zStringChecks (checks : List ((String → Bool) × String × String)) : Schema := fun j =>
  match j with
  | .str s =>
      ⟨false, checks.filterMap (fun c => if c.1 s then none else some ⟨c.2.1, [], c.2.2, ""⟩)⟩
  | _ => zInvalidType "string" j

/-- Model of `z.number()` with a chain of checks (`positive`, `gt`, `lte`,
`int`, `min`, and number-level `.refine`s): a non-number aborts; otherwise each
failing check contributes one issue, in order. -/
def zNumberChecks (checks : List ((Int → Bool) × String × String)) : Schema := fun j =>
  match j with
  | .num n =>
      ⟨false, checks.filterMap (fun c => if c.1 n then none else some ⟨c.2.1, [], c.2.2, ""⟩)⟩
  | _ => zInvalidType "number" j

/-- Model of plain `z.number()`. -/
def zNumber : Schema := zNumberChecks []

/-- Model of plain `z.string()`. -/
def zString : Schema := zStringChecks []

/-- Model of `z.literal(true)`: any other value aborts with `invalid_literal`. -/
def zLiteralTrue : Schema := fun j =>
  match j with
  | .bool true => ZRes.ok
  | _ => ⟨true, [⟨"invalid_literal", [], "Invalid literal value, expected true", ""⟩]⟩

/-- Model of `z.null()`. -/
def zNull : Schema := fun j =>
  match j with
  | .null => ZRes.ok
  | _ => zInvalidType "null" j

/-- Model of `z.boolean()`. -/
def zBoolean : Schema := fun j =>
  match j with
  | .bool _ => ZRes.ok
  | _ => zInvalidType "boolean" j

/-- Model of `z.undefined()`: a present (parsed-JSON) value is never
`undefined`, so this alternative always aborts. -/
def zUndefined : Schema := fun j => zInvalidType "undefined" j

/-- Model of `z.enum([...])` over string literals. -/
def zEnum (vals : List String) : Schema := fun j =>
  match j with
  | .str s =>
      if vals.contains s then ZRes.ok
      else ⟨true, [⟨"invalid_enum_value", [], "Invalid enum value: " ++ s, ""⟩]⟩
  | _ => zInvalidType "string" j

/-- Combine the results of a union's alternatives, in declaration order:
if some alternative is valid the union is valid; otherwise the first dirty
(non-aborted) alternative's issues are reported; otherwise a single aborting
`invalid_union` issue is reported.  This is Zod's sync union semantics. -/
def zUnionRes (rs : List ZRes) : ZRes :=
  if rs.any ZRes.valid then ZRes.ok
  else
    match rs.find? (fun r => !r.aborted) with
    | some r => r
    | none => ⟨true, [⟨"invalid_union", [], "Invalid input", ""⟩]⟩

/-- Model of `z.union([...])` / `.or(...)` over schemas. -/
def zUnion (opts : List Schema) : Schema := fun j => zUnionRes (opts.map (fun s => s j))

/-- Model of `a.or(b)`. -/
def zOr (a b : Schema) : Schema := zUnion [a, b]

/-- Model of `.refine(p, message)` (and of `.refine(p, { path, message })`) on
top of an already-computed base result: the refinement predicate runs unless
the base parse aborted, and a failure appends one `custom` issue at `path`. -/
def ZRes.withRefine (r : ZRes) (pass : Bool) (path : List PathElem) (message : String) : ZRes :=
  if r.aborted then r
  else if pass then r
  else ⟨r.aborted, r.issues ++ [⟨"custom", path, message, ""⟩]⟩

/-- Model of `.refine(p, message)` as a schema transformer, for predicates that
read the validated value. -/
def zRefine (base : Schema) (p : JSON → Bool) (message : String) : Schema := fun j =>
  (base j).withRefine (p j) [] message

/-- Model of `.refine(...uniqueItems)` on an array schema. -/
def zRefineUnique (base : Schema) : Schema := fun j =>
  (base j).withRefine
    (match j with
      | .arr xs => uniqueItems xs
      | _ => true)
    [] "Items must be unique."

/-- Model of `.refine(...nonEmpty)`. -/
def zRefineNonEmpty (base : Schema) : Schema := fun j =>
  (base j).withRefine (jsonNonEmpty j) [] "Object must not be empty."

/-- Shape entry of an object schema: member name, whether the member may be
absent (`.optional()`), and its schema. -/
structure ZField where
  name : String
  opt : Bool
  schema : Schema

/-- Per-member result of an object parse: a required absent member aborts with
Zod's `Required` issue at the member's path; a present member's result is
path-prefixed with the member name. -/
def fieldResult (fs : JSONFields) (f : ZField) : ZRes :=
  match fs.find? f.name with
  | none =>
      if f.opt then ZRes.ok
      else ⟨true, [⟨"invalid_type", [PathElem.key f.name], "Required", "undefined"⟩]⟩
  | some v => (f.schema v).prefixWith (PathElem.key f.name)

/-- The `unrecognized_keys` issue of a `.strict()` object, listing the unknown
keys in data order. -/
def unrecognizedKeysIssue (unknown : List String) : Issue :=
  ⟨"unrecognized_keys", [],
    "Unrecognized key(s) in object: " ++ String.intercalate ", " unknown, ""⟩

/-- Assemble an object parse from per-member results computed elsewhere:
member issues in shape order, then (when `strict`) one `unrecognized_keys`
issue for the data keys outside `known`; the parse aborts when any member
aborted (Zod's `mergeObjectSync`). -/
def zObjResults (strict : Bool) (known : List String) (fs : JSONFields)
    (results : List ZRes) : ZRes :=
  let unknown := fs.keys.filter (fun k => !known.contains k)
  let strictIssues :=
    if strict && !unknown.isEmpty then [unrecognizedKeysIssue unknown] else []
  ⟨results.any (fun r => r.aborted),
    results.flatMap (fun r => r.issues) ++ strictIssues⟩

/-- Model of `z.object({...})` (with `.strict()` when `strict` is true): a
non-object aborts with `invalid_type`; members are parsed in shape order. -/
def zObject (strict : Bool) (shape : List ZField) : Schema := fun j =>
  match j with
  | .obj fs => zObjResults strict (shape.map ZField.name) fs (shape.map (fieldResult fs))
  | _ => zInvalidType "object" j

/-- Assemble an array parse from per-element results computed elsewhere: the
`.min(len)` check first, then element issues prefixed with their index; the
parse aborts when any element aborted (Zod's `mergeArray`). -/
def zArrayResults (minLen : Nat) (xs : JSONList) (results : List ZRes) : ZRes :=
  let minIssues :=
    if xs.length < minLen then
      [⟨"too_small", [],
        "Array must contain at least " ++ toString minLen ++ " element(s)", ""⟩]
    else []
  ⟨results.any (fun r => r.aborted),
    minIssues
      ++ (results.enum.flatMap (fun ri => (ri.2.prefixWith (PathElem.idx ri.1)).issues))⟩

/-- Model of `z.array(s).min(minLen)` for a non-recursive element schema. -/
def zArrayMin (minLen : Nat) (s : Schema) : Schema := fun j =>
  match j with
  | .arr xs => zArrayResults minLen xs (xs.toList.map s)
  | _ => zInvalidType "array" j

/-- Model of `z.tuple([...])`: an array shorter than the item list aborts with
`too_small`; a longer one gets a dirty `too_big` issue; items are parsed
positionally. -/
def zTuple (items : List Schema) : Schema := fun j =>
  match j with
  | .arr xs =>
      let l := xs.toList
      if l.length < items.length then
        ⟨true, [⟨"too_small", [],
          "Array must contain at least " ++ toString items.length ++ " element(s)", ""⟩]⟩
      else
        let results := (items.zip l).map (fun sv => sv.1 sv.2)
        let bigIssues :=
          if items.length < l.length then
            [⟨"too_big", [],
              "Array must contain at most " ++ toString items.length ++ " element(s)", ""⟩]
          else []
        ⟨results.any (fun r => r.aborted),
          bigIssues
            ++ (results.enum.flatMap
                  (fun ri => (ri.2.prefixWith (PathElem.idx ri.1)).issues))⟩
  | _ => zInvalidType "array" j

/-- Model of `z.record(keySchema, valueSchema)`: every own key is validated by
the key schema and every value by the value schema, with issues at the key's
path. -/
def zRecord (keySchema valueSchema : Schema) : Schema := fun j =>
  match j with
  | .obj fs =>
      let results := fs.toList.map (fun kv =>
        ((keySchema (.str kv.1)).prefixWith (PathElem.key kv.1),
          (valueSchema kv.2).prefixWith (PathElem.key kv.1)))
      ⟨results.any (fun r => r.1.aborted || r.2.aborted),
        results.flatMap (fun r => r.1.issues ++ r.2.issues)⟩
  | _ => zInvalidType "object" j

/-- Character class `[a-z0-9]` of the slug / roll-option regexes. -/
def isLowerAlnum (c : Char) : Bool :=
  ('a' ≤ c && c ≤ 'z') || ('0' ≤ c && c ≤ '9')

/-- Character class `[a-zA-Z0-9]` (case-insensitive alphanumeric). -/
def isAlnumCI (c : Char) : Bool :=
  ('a' ≤ c && c ≤ 'z') || ('A' ≤ c && c ≤ 'Z') || ('0' ≤ c && c ≤ '9')

/-- JavaScript `\w`: ASCII letters, digits and underscore. -/
def isWordChar (c : Char) : Bool := isAlnumCI c || c == '_'

/-- JavaScript `\d`: ASCII digits. -/
def isDigitChar (c : Char) : Bool := '0' ≤ c && c ≤ '9'

/-- Character class `[0-9a-f]` with the `i` flag (hexadecimal digit). -/
def isHexDigitCI (c : Char) : Bool :=
  ('0' ≤ c && c ≤ '9') || ('a' ≤ c && c ≤ 'f') || ('A' ≤ c && c ≤ 'F')

/-- Split a character list on a separator character; like `String.prototype.split`,
an empty input yields one empty part and `n` separators yield `n + 1` parts. -/
def splitOnChar (sep : Char) : List Char → List (List Char)
  | [] => [[]]
  | x :: rest =>
      let r := splitOnChar sep rest
      if x == sep then [] :: r
      else
        match r with
        | [] => [[x]]
        | p :: ps => (x :: p) :: ps

/-- One hyphen-separated slug segment: `[a-z0-9]+`. -/
def isSlugSegment (cs : List Char) : Bool :=
  !cs.isEmpty && cs.all isLowerAlnum

/-- Matcher for the `slug` regex `^[a-z0-9]+(?:-[a-z0-9]+)*$`: nonempty
lower-alphanumeric segments joined by single hyphens. -/
def isSlug (s : String) : Bool :=
  (splitOnChar '-' s.toList).all isSlugSegment

/-- A colon-separated roll-option segment is itself a slug (hyphen-joined). -/
def isSlugPart (cs : List Char) : Bool :=
  (splitOnChar '-' cs).all isSlugSegment

/-- The optional trailing roll-option suffix `-?\d+` (a signed integer). -/
def isSignedIntPart : List Char → Bool
  | '-' :: rest => !rest.isEmpty && rest.all isDigitChar
  | cs => !cs.isEmpty && cs.all isDigitChar

/-- Matcher for the `rollOption` regex
`^[a-z0-9]+(?:-[a-z0-9]+)*(?::[a-z0-9]+(?:-[a-z0-9]+)*)*(?::-?\d+)?$`:
colon-separated slug segments, the last of which may instead be a signed
integer (and a lone signed integer without a leading slug segment is not a
roll option). -/
def isRollOption (s : String) : Bool :=
  match (splitOnChar ':' s.toList).reverse with
  | [] => false
  | [p] => isSlugPart p
  | last :: front => front.all isSlugPart && (isSlugPart last || isSignedIntPart last)

/-- Matcher for the `hexColour` regex `^#[0-9a-f]{3}(?:[0-9a-f]{3})?$/i`. -/
def isHexColour (s : String) : Bool :=
  match s.toList with
  | '#' :: rest => rest.all isHexDigitCI && (rest.length == 3 || rest.length == 6)
  | _ => false

/-- Matcher for the token-image `uuid` regex `^[a-z0-9]+(?:\.[a-z0-9-]+)+$/i`. -/
def isUuid (s : String) : Bool :=
  match splitOnChar '.' s.toList with
  | p :: rest =>
      !rest.isEmpty && !p.isEmpty && p.all isAlnumCI
        && rest.all (fun q => !q.isEmpty && q.all (fun c => isAlnumCI c || c == '-'))
  | [] => false

/-- Character class `[^":<>?\\|/]` of the `filePath` regex. -/
def isSafePathChar (c : Char) : Bool :=
  !(c == '"' || c == ':' || c == '<' || c == '>' || c == '?' || c == '\\' || c == '|' || c == '/')

/-- Reversed-list view of `[^":<>?\\|/]+\.\w\w\w$` (three-character extension). -/
def ext3Rev : List Char → Bool
  | a :: b :: c :: '.' :: e :: rest =>
      isWordChar a && isWordChar b && isWordChar c && (e :: rest).all isSafePathChar
  | _ => false

/-- Reversed-list view of `[^":<>?\\|/]+\.\w\w\w\w$` (four-character extension). -/
def ext4Rev : List Char → Bool
  | a :: b :: c :: d :: '.' :: e :: rest =>
      isWordChar a && isWordChar b && isWordChar c && isWordChar d
        && (e :: rest).all isSafePathChar
  | _ => false

/-- The final path segment: nonempty safe body, a dot, then a 3–4 character
extension (the regex backtracks, so either extension length may match). -/
def lastSegOk (cs : List Char) : Bool := ext4Rev cs.reverse || ext3Rev cs.reverse

/-- The leading path segment `\w[^":<>?\\|/]+`: a word character then at least
one more safe character. -/
def firstSegOk : List Char → Bool
  | c :: d :: rest => isWordChar c && (d :: rest).all isSafePathChar
  | _ => false

/-- Matcher for the `filePath` regex
`^\w[^":<>?\\|/]+(?:\/[^":<>?\\|/]+)+\.\w\w\w\w?$`: a leading segment, at
least one further slash-separated segment, the last of which ends in a dot and
a 3–4 character extension. -/
def isFilePath (s : String) : Bool :=
  match (splitOnChar '/' s.toList).reverse with
  | [] => false
  | lastSeg :: midsRev =>
      match midsRev.reverse with
      | [] => false
      | seg0 :: middle =>
          firstSegOk seg0
            && middle.all (fun m => !m.isEmpty && m.all isSafePathChar)
            && lastSegOk lastSeg

/-- Character class `[\w-]` of the `sequencerDBEntry` regex. -/
def isWordDash (c : Char) : Bool := isWordChar c || c == '-'

/-- Character class `[^{},]` inside a database-entry alternation macro. -/
def notBraceComma (c : Char) : Bool :=
  !(c == '\x7b' || c == '\x7d' || c == ',')

/-- Parse `(?:,[^{},]+)+\}` of a brace alternation, returning the remaining
input; the fuel is the input length, which each step strictly decreases. -/
def parseAlts : Nat → List Char → Option (List Char)
  | 0, _ => none
  | fuel + 1, ',' :: rest =>
      let g := rest.takeWhile notBraceComma
      let r := rest.dropWhile notBraceComma
      if g.isEmpty then none
      else
        match r with
        | '\x7d' :: r2 => some r2
        | ',' :: _ => parseAlts fuel r
        | _ => none
  | _ + 1, _ => none

/-- Parse one dot-separated database-entry segment, `[\w-]+` or
`\{\w+(?:,[^{},]+)+\}`, returning the remaining input. -/
def parseDBSeg (cs : List Char) : Option (List Char) :=
  match cs with
  | '\x7b' :: rest =>
      let w := rest.takeWhile isWordChar
      let r := rest.dropWhile isWordChar
      if w.isEmpty then none else parseAlts (r.length + 1) r
  | _ =>
      let w := cs.takeWhile isWordDash
      let r := cs.dropWhile isWordDash
      if w.isEmpty then none else some r

/-- Parse `(?:\.segment)*$` after the leading segment. -/
def parseDotSegs : Nat → List Char → Bool
  | 0, _ => false
  | _ + 1, [] => true
  | fuel + 1, '.' :: rest =>
      (match parseDBSeg rest with
        | some r => parseDotSegs fuel r
        | none => false)
  | _ + 1, _ => false

/-- Matcher for the `sequencerDBEntry` regex
`^\w[\w-]+(?:\.(?:[\w-]+|\{\w+(?:,[^{},]+)+\}))+$`: a leading `\w[\w-]+`
segment and one or more dot-separated segments, each a `[\w-]+` run or a
brace-enclosed comma alternation. -/
def isSequencerDBEntry (s : String) : Bool :=
  match s.toList with
  | [] => false
  | c :: rest =>
      isWordChar c
        && (let w := rest.takeWhile isWordDash
            let r := rest.dropWhile isWordDash
            !w.isEmpty
              && (match r with
                  | '.' :: _ => parseDotSegs (r.length + 1) r
                  | _ => false))

/-- JavaScript strict equality `===` between two separately parsed values:
primitives compare by value; arrays and objects are distinct references and
never compare equal. -/
def jsStrictEq : JSON → JSON → Bool
  | .num a, .num b => a == b
  | .str a, .str b => a == b
  | .bool a, .bool b => a == b
  | .null, .null => true
  | _, _ => false

/-- Number check `.positive()`. -/
def positiveCheck : (Int → Bool) × String × String :=
  (fun n => 0 < n, "too_small", "Number must be greater than 0")

/-- Number check `.min(1)`. -/
def min1Check : (Int → Bool) × String × String :=
  (fun n => 1 ≤ n, "too_small", "Number must be greater than or equal to 1")

/-- Number check `.int()`: JSON numbers are modelled as integers, so the check
never fails (no verified property concerns non-integral inputs). -/
def intCheck : (Int → Bool) × String × String :=
  (fun _ => true, "invalid_type", "Expected integer, received float")

/-- The `nonZero` helper refinement of the source, as a number check. -/
def nonZeroCheck : (Int → Bool) × String × String :=
  (fun n => n != 0, "custom",
    "Number cannot be 0. If you want the value to be 0, simply leave the property undefined.")

/-- String check `.min(len)`. -/
def strMinCheck (len : Nat) (msg : String) : (String → Bool) × String × String :=
  (fun s => len ≤ s.length, "too_small", msg)

/-- Model of `z.string().min(1)`. -/
def stringMin1 : Schema :=
  zStringChecks [strMinCheck 1 "String must contain at least 1 character(s)"]

/-- Model of the `JSONValue` union (source line 52): string, number, boolean,
loose empty object, null or undefined — everything but an array. -/
def JSONValue : Schema :=
  zUnion [zString, zNumber, zBoolean, zObject false [], zNull, zUndefined]

/-- Model of the `slug` schema (source line 54). -/
def slug : Schema :=
  zStringChecks [(isSlug, "invalid_string", "String must be a valid slug.")]

/-- Model of the `rollOption` schema (source lines 56–61). -/
def rollOption : Schema :=
  zStringChecks [(isRollOption, "invalid_string", "String must be a valid roll option.")]

/-- Model of the `hexColour` schema (source lines 149–151). -/
def hexColour : Schema :=
  zStringChecks
    [(isHexColour, "invalid_string", "String must be a valid hexadecimal colour-code.")]

/-- Model of the `angle` schema (source lines 153–157):
`z.number().gt(-180).lte(180).refine(...nonZero)`. -/
def angle : Schema :=
  zNumberChecks
    [ (fun n => -180 < n, "too_small", "Number must be greater than -180")
    , (fun n => n ≤ 180, "too_big", "Number must be less than or equal to 180")
    , nonZeroCheck ]

/-- Model of the `filePath` schema (source lines 159–164). -/
def filePath : Schema :=
  zStringChecks
    [(isFilePath, "invalid_string",
      "String must be a valid filepath. The following characters are unsafe for cross-platform filesystems: \":<>?\\|")]

/-- Model of the `sequencerDBEntry` schema (source lines 166–168). -/
def sequencerDBEntry : Schema :=
  zStringChecks
    [(isSequencerDBEntry, "invalid_string", "String must be a valid Sequencer database entry.")]

/-- Model of the comparison alternatives of the `predicate` union
(`z.object({ key: z.tuple([rollOption, rollOption.or(z.number())]) }).strict()`
for `eq`, `gt`, `gte`, `lt`, `lte`). -/
def comparisonBranch (key : String) : Schema :=
  zObject true [⟨key, false, zTuple [rollOption, zOr rollOption zNumber]⟩]

/-- Per-member result of an object schema whose member results were computed
elsewhere (`none` means the member is absent). -/
def preFieldResult (f : String × Bool × Option ZRes) : ZRes :=
  match f.2.2 with
  | none =>
      if f.2.1 then ZRes.ok
      else ⟨true, [⟨"invalid_type", [PathElem.key f.1], "Required", "undefined"⟩]⟩
  | some r => r.prefixWith (PathElem.key f.1)

/-- Object schema assembled from pre-computed member results (used for the
recursive schemas, whose member results are computed by mutual recursion). -/
def zObjPre (strict : Bool) (fs : JSONFields) (shape : List (String × Bool × Option ZRes)) :
    ZRes :=
  zObjResults strict (shape.map (fun f => f.1)) fs (shape.map preFieldResult)

/-- Find a key's pre-computed results in an evaluated member list. -/
def evalFind (ev : List (String × ZRes × ZRes)) (name : String) : Option (ZRes × ZRes) :=
  (ev.find? (fun e => e.1 == name)).map (fun e => e.2)

mutual
/-- Model of the recursive `predicate` union (source lines 78–147): a roll
option, a comparison, a (non-empty, stringify-unique) combinator array
(`and`/`or`/`xor`/`nand`/`nor`/`iff`), a `not` wrapper or an `if`/`then` pair,
tried in declaration order with Zod's union semantics. -/
def predicate : JSON → ZRes
  | .obj fs =>
      let ev := predicateEvalFields fs
      zUnionRes
        [ rollOption (.obj fs)
        , comparisonBranch "eq" (.obj fs)
        , comparisonBranch "gt" (.obj fs)
        , comparisonBranch "gte" (.obj fs)
        , comparisonBranch "lt" (.obj fs)
        , comparisonBranch "lte" (.obj fs)
        , zObjPre true fs [("and", false, (evalFind ev "and").map (fun p => p.2))]
        , zObjPre true fs [("or", false, (evalFind ev "or").map (fun p => p.2))]
        , zObjPre true fs [("xor", false, (evalFind ev "xor").map (fun p => p.2))]
        , zObjPre true fs [("not", false, (evalFind ev "not").map (fun p => p.1))]
        , zObjPre true fs [("nand", false, (evalFind ev "nand").map (fun p => p.2))]
        , zObjPre true fs [("nor", false, (evalFind ev "nor").map (fun p => p.2))]
        , zObjPre true fs
            [ ("if", false, (evalFind ev "if").map (fun p => p.1))
            , ("then", false, (evalFind ev "then").map (fun p => p.1)) ]
        , zObjPre true fs [("iff", false, (evalFind ev "iff").map (fun p => p.2))]
        ]
  | j =>
      zUnionRes (rollOption j :: List.replicate 13 (zInvalidType "object" j))
/-- For every member of an object, the results of `predicate` and of
`z.array(predicate).min(1).refine(...uniqueItems)` on its value. -/
def predicateEvalFields : JSONFields → List (String × ZRes × ZRes)
  | .nil => []
  | .cons k v tl => (k, predicate v, predicateArray v) :: predicateEvalFields tl
/-- Model of `z.array(predicate).min(1).refine(...uniqueItems)` (the spelling
used by the combinator alternatives and by the `predicate` members of the
sound and animation-object grammars). -/
def predicateArray : JSON → ZRes
  | .arr xs =>
      (zArrayResults 1 xs (predicateEvalList xs)).withRefine (uniqueItems xs) []
        "Items must be unique."
  | j => zInvalidType "array" j
/-- Elementwise `predicate` results of an array. -/
def predicateEvalList : JSONList → List ZRes
  | .nil => []
  | .cons x tl => predicate x :: predicateEvalList tl
end

/-- Model of the `vector2` schema (source lines 170–182). -/
def vector2 : Schema :=
  zRefineNonEmpty (zObject true
    [ ⟨"x", true, zNumberChecks [nonZeroCheck]⟩
    , ⟨"y", true, zNumberChecks [nonZeroCheck]⟩ ])

/-- The two-element offset range of the `offset` schema, with its
`arr[0] !== arr[1]` refinement. -/
def offsetRange : Schema := fun j =>
  ((zTuple [zNumber, zNumber]) j).withRefine
    (match j with
      | .arr (.cons a (.cons b _)) => !jsStrictEq a b
      | _ => true)
    [] "Offset range cannot be zero."

/-- The `x`/`y` member of the `offset` schema: a non-zero number or a range. -/
def offsetXY : Schema := zOr (zNumberChecks [nonZeroCheck]) offsetRange

/-- Model of the `offset` schema (source lines 184–209), including its
`obj.x || obj.y` refinement. -/
def offset : Schema := fun j =>
  ((zRefineNonEmpty (zObject true
    [ ⟨"x", true, offsetXY⟩
    , ⟨"y", true, offsetXY⟩
    , ⟨"flipX", true, zLiteralTrue⟩
    , ⟨"flipY", true, zLiteralTrue⟩ ])) j).withRefine
    (match j with
      | .obj fs => truthy (fs.find? "x") || truthy (fs.find? "y")
      | _ => true)
    [] "At least one offset dimension (`x` or `y`) must be specified."

/-- Model of the `soundEffect` schema (source lines 211–216). -/
def soundEffect : Schema :=
  zObject true
    [ ⟨"type", false, stringMin1⟩
    , ⟨"intensity", false, zNumberChecks [positiveCheck]⟩ ]

/-- The `atLocation` member object of `soundData` (source lines 221–230). -/
def soundAtLocation : Schema :=
  zObject true
    [ ⟨"cacheLocation", true, zLiteralTrue⟩
    , ⟨"offset", true, offset⟩
    , ⟨"randomOffset", true, zNumber⟩
    , ⟨"gridUnits", true, zLiteralTrue⟩
    , ⟨"local", true, zLiteralTrue⟩ ]

/-- Model of the `soundData` schema (source lines 217–248). -/
def soundData : Schema :=
  zObject true
    [ ⟨"file", false, zOr sequencerDBEntry filePath⟩
    , ⟨"waitUntilFinished", true, zNumber⟩
    , ⟨"atLocation", true, soundAtLocation⟩
    , ⟨"radius", true, zNumberChecks [positiveCheck]⟩
    , ⟨"volume", true, zNumberChecks [positiveCheck]⟩
    , ⟨"duration", true, zNumberChecks [positiveCheck]⟩
    , ⟨"constrainedByWalls", true, zLiteralTrue⟩
    , ⟨"predicate", true, predicateArray⟩
    , ⟨"default", true, zLiteralTrue⟩
    , ⟨"delay", true, zNumberChecks [nonZeroCheck]⟩
    , ⟨"muffledEffect", true, soundEffect⟩
    , ⟨"baseEffect", true, soundEffect⟩ ]

/-- Model of the `soundConfig` schema (source lines 249–254). -/
def soundConfig : Schema :=
  zOr soundData (zRefineUnique (zArrayMin 1 soundData))

/-- The `attachTo` member object of `presetOptions` (source lines 259–275). -/
def attachToObj : Schema :=
  zRefineNonEmpty (zObject true
    [ ⟨"align", true, zString⟩
    , ⟨"edge", true, zString⟩
    , ⟨"bindVisibility", true, zLiteralTrue⟩
    , ⟨"bindAlpha", true, zLiteralTrue⟩
    , ⟨"bindScale", true, zLiteralTrue⟩
    , ⟨"bindElevation", true, zLiteralTrue⟩
    , ⟨"followRotation", true, zLiteralTrue⟩
    , ⟨"offset", true, offset⟩
    , ⟨"randomOffset", true, zNumber⟩
    , ⟨"gridUnits", true, zLiteralTrue⟩
    , ⟨"local", true, zLiteralTrue⟩ ])

/-- The `atLocation` member object of `presetOptions` (source lines 278–288). -/
def presetAtLocationObj : Schema :=
  zRefineNonEmpty (zObject true
    [ ⟨"cacheLocation", true, zLiteralTrue⟩
    , ⟨"offset", true, offset⟩
    , ⟨"randomOffset", true, zNumber⟩
    , ⟨"gridUnits", true, zLiteralTrue⟩
    , ⟨"local", true, zLiteralTrue⟩ ])

/-- The `bounce` member object of `presetOptions` (source lines 290–297). -/
def bounceObj : Schema :=
  zRefineNonEmpty (zObject true
    [ ⟨"file", false, zOr sequencerDBEntry filePath⟩
    , ⟨"sound", true, soundConfig⟩ ])

/-- The `rotateTowards` member object of `presetOptions` (source lines 300–312). -/
def rotateTowardsObj : Schema :=
  zRefineNonEmpty (zObject true
    [ ⟨"rotationOffset", true, zNumber⟩
    , ⟨"cacheLocation", true, zLiteralTrue⟩
    , ⟨"attachTo", true, zLiteralTrue⟩
    , ⟨"offset", true, offset⟩
    , ⟨"randomOffset", true, zNumber⟩
    , ⟨"gridUnits", true, zLiteralTrue⟩
    , ⟨"local", true, zLiteralTrue⟩ ])

/-- The `stretchTo` member object of `presetOptions` (source lines 314–329). -/
def stretchToObj : Schema :=
  zRefineNonEmpty (zObject true
    [ ⟨"cacheLocation", true, zLiteralTrue⟩
    , ⟨"attachTo", true, zLiteralTrue⟩
    , ⟨"onlyX", true, zLiteralTrue⟩
    , ⟨"tiling", true, zLiteralTrue⟩
    , ⟨"offset", true, offset⟩
    , ⟨"randomOffset", true, zNumber⟩
    , ⟨"gridUnits", true, zLiteralTrue⟩
    , ⟨"local", true, zLiteralTrue⟩
    , ⟨"requiresLineOfSight", true, zLiteralTrue⟩
    , ⟨"hideLineOfSight", true, zLiteralTrue⟩ ])

/-- Model of the `presetOptions` schema (source lines 256–334). -/
def presetOptions : Schema :=
  zRefineNonEmpty (zObject true
    [ ⟨"attachTo", true, zOr zLiteralTrue attachToObj⟩
    , ⟨"atLocation", true, zOr zLiteralTrue presetAtLocationObj⟩
    , ⟨"bounce", true, bounceObj⟩
    , ⟨"location", true, zEnum ["target", "source", "both"]⟩
    , ⟨"rotateTowards", true, zOr zLiteralTrue rotateTowardsObj⟩
    , ⟨"stretchTo", true, stretchToObj⟩
    , ⟨"templateAsOrigin", true, zLiteralTrue⟩
    , ⟨"targets", true, zRefineNonEmpty (zArrayMin 0 zString)⟩ ])

/-- The 30 easing names of the `ease` enum (source lines 337–368). -/
def easeList : List String :=
  [ "easeInBack", "easeInBounce", "easeInCirc", "easeInCubic", "easeInElastic"
  , "easeInExpo", "easeInOutBack", "easeInOutBounce", "easeInOutCirc", "easeInOutCubic"
  , "easeInOutElastic", "easeInOutExpo", "easeInOutQuad", "easeInOutQuart", "easeInOutQuint"
  , "easeInOutSine", "easeInQuad", "easeInQuart", "easeInQuint", "easeInSine"
  , "easeOutBack", "easeOutBounce", "easeOutCirc", "easeOutCubic", "easeOutElastic"
  , "easeOutExpo", "easeOutQuad", "easeOutQuart", "easeOutQuint", "easeOutSine" ]

/-- Model of the `ease` enum schema. -/
def ease : Schema := zEnum easeList

/-- The members of `easingOptions` (source lines 370–375), reused by its
`.extend(...)` occurrences. -/
def easingOptionsFields : List ZField :=
  [ ⟨"ease", true, ease⟩
  , ⟨"delay", true, zNumberChecks [positiveCheck]⟩ ]

/-- Model of the `easingOptions` schema. -/
def easingOptions : Schema := zObject true easingOptionsFields

/-- The `offset` member object of `shape` (source lines 395–402). -/
def shapeOffsetObj : Schema :=
  zObject true
    [ ⟨"x", true, zNumber⟩
    , ⟨"y", true, zNumber⟩
    , ⟨"gridUnits", true, zLiteralTrue⟩ ]

/-- Model of the `shape` schema (source lines 377–406). -/
def shape : Schema :=
  zRefineNonEmpty (zObject true
    [ ⟨"type", false, zEnum ["polygon", "rectangle", "circle", "ellipse", "roundedRect"]⟩
    , ⟨"radius", true, zNumberChecks [positiveCheck]⟩
    , ⟨"width", true, zNumberChecks [positiveCheck]⟩
    , ⟨"height", true, zNumberChecks [positiveCheck]⟩
    , ⟨"points", true, zRefineUnique (zArrayMin 1 (zOr (zTuple [zNumber, zNumber]) vector2))⟩
    , ⟨"gridUnits", true, zLiteralTrue⟩
    , ⟨"name", true, zString⟩
    , ⟨"fillColor", true, zOr hexColour zNumber⟩
    , ⟨"fillAlpha", true, zNumberChecks [positiveCheck]⟩
    , ⟨"alpha", true, zNumberChecks [positiveCheck]⟩
    , ⟨"lineSize", true, zNumberChecks [positiveCheck]⟩
    , ⟨"lineColor", true, zOr hexColour zNumber⟩
    , ⟨"offset", true, shapeOffsetObj⟩
    , ⟨"isMask", true, zLiteralTrue⟩ ])

/-- The `options` object of the ColorMatrix filter (source lines 567–586);
its `hue` member is `angle.refine(...nonZero)`, so a zero hue fails the
non-zero check twice. -/
def colorMatrixOptions : Schema :=
  zRefineNonEmpty (zObject true
    [ ⟨"hue", true, zNumberChecks
        [ (fun n => -180 < n, "too_small", "Number must be greater than -180")
        , (fun n => n ≤ 180, "too_big", "Number must be less than or equal to 180")
        , nonZeroCheck
        , nonZeroCheck ]⟩
    , ⟨"brightness", true, zNumber⟩
    , ⟨"contrast", true, zNumber⟩
    , ⟨"saturate", true, zNumber⟩ ])

/-- The `options` object of the Glow filter (source lines 592–626). -/
def glowOptions : Schema :=
  zRefineNonEmpty (zObject true
    [ ⟨"distance", true, zNumberChecks [positiveCheck]⟩
    , ⟨"outerStrength", true, zNumberChecks [positiveCheck]⟩
    , ⟨"innerStrength", true, zNumberChecks [positiveCheck]⟩
    , ⟨"color", true, hexColour⟩
    , ⟨"quality", true, zNumberChecks
        [ (fun n => 0 ≤ n, "too_small", "Number must be greater than or equal to 0")
        , (fun n => n ≤ 1, "too_big", "Number must be less than or equal to 1") ]⟩
    , ⟨"knockout", true, zLiteralTrue⟩ ])

/-- The cross-field rule of the Blur options (source line 667):
`!options.blur || (!options.blurX && !options.blurY)`. -/
def blurExclusion : JSON → Bool := fun j =>
  match j with
  | .obj fs =>
      !truthy (fs.find? "blur") || (!truthy (fs.find? "blurX") && !truthy (fs.find? "blurY"))
  | _ => true

/-- The `custom` issue reported by the Blur cross-field rule, at the `blur`
path (source lines 667–670). -/
def blurExclusionIssue : Issue :=
  ⟨"custom", [PathElem.key "blur"],
    "`blur` cannot be used at the same time as `blurX` or `blurY`.", ""⟩

/-- The member shape of the Blur filter options (source lines 632–664). -/
def blurOptionsShape : List ZField :=
  [ ⟨"strength", true, zNumberChecks [positiveCheck]⟩
  , ⟨"blur", true, zNumberChecks [positiveCheck]⟩
  , ⟨"blurX", true, zNumberChecks [positiveCheck]⟩
  , ⟨"blurY", true, zNumberChecks [positiveCheck]⟩
  , ⟨"quality", true, zNumberChecks [intCheck, positiveCheck]⟩
  , ⟨"resolution", true, zNumberChecks [positiveCheck]⟩
  , ⟨"kernelSize", true, zNumberChecks [positiveCheck, intCheck]⟩ ]

/-- The `options` object of the Blur filter (source lines 632–670), including
the cross-field rule forbidding `blur` together with `blurX`/`blurY`. -/
def blurOptions : Schema := fun j =>
  ((zRefineNonEmpty (zObject true blurOptionsShape)) j).withRefine
    (blurExclusion j) [PathElem.key "blur"]
    "`blur` cannot be used at the same time as `blurX` or `blurY`."

/-- The `options` object of the Noise filter (source lines 676–687). -/
def noiseOptions : Schema :=
  zRefineNonEmpty (zObject true
    [ ⟨"noise", true, zNumberChecks
        [ (fun n => 0 < n, "too_small", "Number must be greater than 0")
        , (fun n => n ≤ 1, "too_big", "Number must be less than or equal to 1") ]⟩
    , ⟨"seed", true, zNumber⟩ ])

/-- Model of `z.literal(v)` over a string literal. -/
def zLiteralStr (v : String) : Schema := fun j =>
  match j with
  | .str s =>
      if s == v then ZRes.ok
      else ⟨true, [⟨"invalid_literal", [], "Invalid literal value, expected " ++ v, ""⟩]⟩
  | _ => ⟨true, [⟨"invalid_literal", [], "Invalid literal value, expected " ++ v, ""⟩]⟩

/-- The ColorMatrix variant of the `filter` discriminated union. -/
def filterColorMatrix : Schema :=
  zObject true
    [ ⟨"type", false, zLiteralStr "ColorMatrix"⟩
    , ⟨"options", false, colorMatrixOptions⟩ ]

/-- The Glow variant of the `filter` discriminated union. -/
def filterGlow : Schema :=
  zObject true
    [ ⟨"type", false, zLiteralStr "Glow"⟩
    , ⟨"options", false, glowOptions⟩ ]

/-- The Blur variant of the `filter` discriminated union. -/
def filterBlur : Schema :=
  zObject true
    [ ⟨"type", false, zLiteralStr "Blur"⟩
    , ⟨"options", false, blurOptions⟩ ]

/-- The Noise variant of the `filter` discriminated union (its options object
is optional). -/
def filterNoise : Schema :=
  zObject true
    [ ⟨"type", false, zLiteralStr "Noise"⟩
    , ⟨"options", true, noiseOptions⟩ ]

/-- The Clip variant of the `filter` discriminated union. -/
def filterClip : Schema :=
  zObject true [⟨"type", false, zLiteralStr "Clip"⟩]

/-- Model of the `filter` member of `effectOptions`
(`z.discriminatedUnion('type', [...])`, source lines 562–697): the `type`
member selects the variant; a missing or unrecognised discriminator aborts
with an `invalid_union_discriminator` issue at the `type` path. -/
def filterSchema : Schema := fun j =>
  match j with
  | .obj fs =>
      match fs.find? "type" with
      | some (.str "ColorMatrix") => filterColorMatrix j
      | some (.str "Glow") => filterGlow j
      | some (.str "Blur") => filterBlur j
      | some (.str "Noise") => filterNoise j
      | some (.str "Clip") => filterClip j
      | _ =>
          ⟨true, [⟨"invalid_union_discriminator", [PathElem.key "type"],
            "Invalid discriminator value. Expected ColorMatrix | Glow | Blur | Noise | Clip",
            ""⟩]⟩
  | _ => zInvalidType "object" j

/-- The `min`/`max` object of the `wait` and `delay` members
(source lines 460–466 and 471–477). -/
def minMaxObj : Schema :=
  zObject true
    [ ⟨"min", false, zNumberChecks [nonZeroCheck]⟩
    , ⟨"max", true, zNumber⟩ ]

/-- The first `repeats` refinement (source lines 546–549):
`obj.delayMax ? obj.delayMin || obj.delayMin === 0 : true`. -/
def repeatsDelayMinRequired : JSON → Bool := fun j =>
  match j with
  | .obj fs =>
      if truthy (fs.find? "delayMax")
      then truthy (fs.find? "delayMin")
        || (match fs.find? "delayMin" with
            | some (.num n) => n == 0
            | _ => false)
      else true
  | _ => true

/-- The second `repeats` refinement (source lines 550–553):
`obj.delayMax ? obj.delayMax > obj.delayMin! : true` (a comparison against an
absent `delayMin` is a NaN comparison and fails). -/
def repeatsDelayMaxGreater : JSON → Bool := fun j =>
  match j with
  | .obj fs =>
      if truthy (fs.find? "delayMax")
      then
        match fs.find? "delayMax", fs.find? "delayMin" with
        | some (.num mx), some (.num mn) => mn < mx
        | _, _ => false
      else true
  | _ => true

/-- The structured alternative of the `repeats` member (source lines 538–553). -/
def repeatsObj : Schema := fun j =>
  (((zObject true
    [ ⟨"count", false, zNumberChecks [min1Check]⟩
    , ⟨"delayMin", true, zNumber⟩
    , ⟨"delayMax", true, zNumberChecks [positiveCheck]⟩ ]) j).withRefine
    (repeatsDelayMinRequired j) [] "`delayMin` is required if `delayMax` is defined.").withRefine
    (repeatsDelayMaxGreater j) [] "`delayMax` must be greater than `delayMin`."

/-- The `options` object of a `loopProperty` entry (source lines 714–731). -/
def loopPropertyOptions : Schema :=
  zObject true
    [ ⟨"duration", false, zNumber⟩
    , ⟨"from", true, zNumber⟩
    , ⟨"to", true, zNumber⟩
    , ⟨"values", true, zRefineUnique (zArrayMin 1 zNumber)⟩
    , ⟨"loops", true, zNumberChecks [intCheck, positiveCheck]⟩
    , ⟨"pingPong", true, zLiteralTrue⟩
    , ⟨"delay", true, zNumberChecks [positiveCheck]⟩
    , ⟨"ease", true, ease⟩
    , ⟨"fromEnd", true, zLiteralTrue⟩
    , ⟨"gridUnits", true, zLiteralTrue⟩ ]

/-- One `loopProperty` entry (source lines 710–733). -/
def loopPropertyItem : Schema :=
  zObject true
    [ ⟨"target", false, zString⟩
    , ⟨"property", false, zString⟩
    , ⟨"options", false, loopPropertyOptions⟩ ]

/-- The `options` object of an `animateProperty` entry (source lines 744–754). -/
def animatePropertyOptions : Schema :=
  zObject true
    [ ⟨"duration", false, zNumber⟩
    , ⟨"from", false, zNumber⟩
    , ⟨"to", false, zNumber⟩
    , ⟨"delay", true, zNumber⟩
    , ⟨"ease", true, ease⟩
    , ⟨"fromEnd", true, zLiteralTrue⟩
    , ⟨"gridUnits", true, zLiteralTrue⟩ ]

/-- One `animateProperty` entry (source lines 740–756). -/
def animatePropertyItem : Schema :=
  zObject true
    [ ⟨"target", false, zString⟩
    , ⟨"property", false, zString⟩
    , ⟨"options", false, animatePropertyOptions⟩ ]

/-- Model of the `effectOptions` schema (source lines 408–771): the closed,
must-not-be-empty per-effect configuration object. -/
def effectOptions : Schema :=
  zRefineNonEmpty (zObject true
    [ ⟨"sound", true, soundConfig⟩
    , ⟨"preset", true, presetOptions⟩
    , ⟨"locally", true, zLiteralTrue⟩
    , ⟨"id", true, zStringChecks
        [ (isSlug, "invalid_string", "String must be a valid slug.")
        , strMinCheck 6 "Animation IDs should be reasonably unique." ]⟩
    , ⟨"name", true, stringMin1⟩
    , ⟨"syncGroup", true, zString⟩
    , ⟨"randomRotation", true, zLiteralTrue⟩
    , ⟨"randomizeMirrorX", true, zLiteralTrue⟩
    , ⟨"randomizeMirrorY", true, zLiteralTrue⟩
    , ⟨"mirrorX", true, zLiteralTrue⟩
    , ⟨"mirrorY", true, zLiteralTrue⟩
    , ⟨"remove", true, zOr slug (zRefineUnique (zArrayMin 1 slug))⟩
    , ⟨"tieToDocuments", true, zLiteralTrue⟩
    , ⟨"belowTokens", true, zLiteralTrue⟩
    , ⟨"waitUntilFinished", true, zNumberChecks [nonZeroCheck]⟩
    , ⟨"zIndex", true, zNumber⟩
    , ⟨"duration", true, zNumberChecks [positiveCheck]⟩
    , ⟨"tint", true, hexColour⟩
    , ⟨"rotate", true, angle⟩
    , ⟨"opacity", true, zNumberChecks
        [ positiveCheck
        , (fun n => n < 1, "too_big", "Number must be less than 1") ]⟩
    , ⟨"mask", true, zLiteralTrue⟩
    , ⟨"fadeIn", true, zOr (zNumberChecks [nonZeroCheck])
        (zObject true (easingOptionsFields ++ [⟨"value", false, zNumberChecks [nonZeroCheck]⟩]))⟩
    , ⟨"fadeOut", true, zOr (zNumberChecks [nonZeroCheck])
        (zObject true (easingOptionsFields ++ [⟨"value", false, zNumberChecks [nonZeroCheck]⟩]))⟩
    , ⟨"wait", true, zOr zNumber minMaxObj⟩
    , ⟨"delay", true, zOr zNumber minMaxObj⟩
    , ⟨"size", true, zOr zNumber (zObject true
        [ ⟨"value", false, zNumberChecks [positiveCheck]⟩
        , ⟨"gridUnits", true, zLiteralTrue⟩ ])⟩
    , ⟨"spriteRotation", true, angle⟩
    , ⟨"scale", true, zOr zNumber (zObject true
        [ ⟨"min", false, zOr zNumber (zObject false
            [ ⟨"x", false, zNumber⟩
            , ⟨"y", false, zNumber⟩ ])⟩
        , ⟨"max", true, zNumber⟩ ])⟩
    , ⟨"scaleToObject", true, zOr zNumber (zObject true
        [ ⟨"value", false, zNumberChecks [positiveCheck]⟩
        , ⟨"uniform", true, zLiteralTrue⟩
        , ⟨"considerTokenScale", true, zLiteralTrue⟩ ])⟩
    , ⟨"spriteOffset", true, zObject true
        [ ⟨"offset", false, offset⟩
        , ⟨"gridUnits", true, zLiteralTrue⟩
        , ⟨"local", true, zLiteralTrue⟩ ]⟩
    , ⟨"persist", true, zOr zLiteralTrue (zRefineNonEmpty (zObject true
        [ ⟨"value", true, zLiteralTrue⟩
        , ⟨"persistTokenPrototype", true, zLiteralTrue⟩ ]))⟩
    , ⟨"repeats", true, zOr (zNumberChecks [min1Check, intCheck]) repeatsObj⟩
    , ⟨"moveTowards", true, zObject true
        (easingOptionsFields ++ [⟨"target", false, zOr vector2 zString⟩])⟩
    , ⟨"filter", true, filterSchema⟩
    , ⟨"missed", true, zLiteralTrue⟩
    , ⟨"anchor", true, vector2⟩
    , ⟨"template", true, zObject true
        [ ⟨"gridSize", false, zNumberChecks [positiveCheck]⟩
        , ⟨"startPoint", false, zNumber⟩
        , ⟨"endPoint", false, zNumber⟩ ]⟩
    , ⟨"loopProperty", true, zRefineUnique (zArrayMin 1 loopPropertyItem)⟩
    , ⟨"animateProperty", true, zRefineUnique (zArrayMin 1 animatePropertyItem)⟩
    , ⟨"shape", true, zOr shape (zRefineUnique (zArrayMin 1 shape))⟩ ])

/-- The `triggersList` constant (source lines 774–793). -/
def triggersList : List String :=
  [ "attack-roll", "damage-roll", "place-template", "action", "toggle", "effect"
  , "self-effect", "start-turn", "end-turn", "damage-taken", "saving-throw", "check"
  , "skill-check", "flat-check", "initiative", "perception-check", "counteract-check"
  , "modifiers-matter" ]

/-- Model of the `triggers` enum schema. -/
def triggers : Schema := zEnum triggersList

/-- The `presetList` constant (source line 797). -/
def presetList : List String := ["onToken", "ranged", "melee", "template", "sound", "macro"]

/-- Model of the `presets` enum schema. -/
def presets : Schema := zEnum presetList

/-- The shape of the `referenceObject` schema (source lines 801–820); `trigger`,
`preset` and `file` are required there, the rest optional. -/
def referenceObjectShape : List ZField :=
  [ ⟨"overrides", true, zRefineUnique (zArrayMin 1 rollOption)⟩
  , ⟨"trigger", false, zOr triggers (zArrayMin 1 triggers)⟩
  , ⟨"preset", false, presets⟩
  , ⟨"file", false, zOr (zOr sequencerDBEntry filePath) (zArrayMin 0 (zOr sequencerDBEntry filePath))⟩
  , ⟨"default", true, zLiteralTrue⟩
  , ⟨"predicate", true, predicateArray⟩
  , ⟨"options", true, effectOptions⟩
  , ⟨"reference", true, rollOption⟩ ]

/-- Model of the `referenceObject` schema itself. -/
def referenceObject : Schema := zObject true referenceObjectShape

/-- The non-recursive members of `animationObject`:
`referenceObject.partial()` makes every member optional. -/
def animationObjectShape : List ZField :=
  referenceObjectShape.map (fun f => ⟨f.name, true, f.schema⟩)

/-- Find a key's pre-computed result in an evaluated member list. -/
def evalFindOne (ev : List (String × ZRes)) (name : String) : Option ZRes :=
  (ev.find? (fun e => e.1 == name)).map (fun e => e.2)

mutual
/-- Model of the recursive `animationObject` schema (source lines 825–838):
`referenceObject.partial().extend({ contents }).strict().refine(...nonEmpty)`,
where `contents` is a non-empty, stringify-unique array of nested
animation objects. -/
def animationObject : JSON → ZRes
  | .obj fs =>
      (zObjResults true (animationObjectShape.map ZField.name ++ ["contents"]) fs
        (animationObjectShape.map (fieldResult fs)
          ++ [preFieldResult ("contents", true, evalFindOne (animEvalFields fs) "contents")])).withRefine
        (jsonNonEmpty (.obj fs)) [] "Object must not be empty."
  | j => zInvalidType "object" j
/-- For every member of an object, the result of the `contents` schema
(`z.array(animationObject).min(1).refine(...uniqueItems)`) on its value. -/
def animEvalFields : JSONFields → List (String × ZRes)
  | .nil => []
  | .cons k v tl => (k, animationObjectContents v) :: animEvalFields tl
/-- Model of the `contents` member schema,
`z.array(animationObject).min(1).refine(...uniqueItems)` (source lines 829–834). -/
def animationObjectContents : JSON → ZRes
  | .arr xs =>
      (zArrayResults 1 xs (animEvalList xs)).withRefine (uniqueItems xs) []
        "Items must be unique."
  | j => zInvalidType "array" j
/-- Elementwise `animationObject` results of an array. -/
def animEvalList : JSONList → List ZRes
  | .nil => []
  | .cons x tl => animationObject x :: animEvalList tl
end

/-- Append a `superRefine`'s issues to a result (skipped when aborted). -/
def ZRes.withSuper (r : ZRes) (extra : List Issue) : ZRes :=
  if r.aborted then r else ⟨r.aborted, r.issues ++ extra⟩

/-- Modelled from the spec: `superValidate` (imported from
`./superValidateAnimations`, which is not among this repository's sources) is
the external multi-entry consistency checker, cross-referencing
`reference`/`default`/`overrides` across sibling entries and reporting into
the provided issue sink; the specification leaves its rules to the external
collaborator, so it is modelled as contributing no issues. -/
def superValidate (arr : JSONList) : List Issue :=
  match arr with
  | _ => []

/-- Model of the `animationObjects` schema (source lines 840–844):
`z.array(animationObject).min(1).superRefine(superValidate).refine(...uniqueItems)`. -/
def animationObjects : Schema := fun j =>
  match j with
  | .arr xs =>
      (((zArrayResults 1 xs (animEvalList xs)).withSuper (superValidate xs)).withRefine
        (uniqueItems xs) [] "Items must be unique.")
  | _ => zInvalidType "array" j

/-- Model of the `animations` schema (source line 847):
`z.record(rollOption, rollOption.or(animationObjects))`. -/
def animations : Schema := zRecord rollOption (zOr rollOption animationObjects)

/-- The tuple alternative of a token-image rule (source lines 859–865).  The
fourth and fifth items are `.optional()`; a parsed JSON array never holds
`undefined`, and (as in Zod) an array shorter than the item list is rejected
as too small, so the optional markers do not alter validation of parsed
JSON input. -/
def tokenImageRuleTuple : Schema :=
  zTuple
    [ slug
    , filePath
    , zNumberChecks [positiveCheck]
    , filePath
    , zNumberChecks [positiveCheck] ]

/-- The `animation` member object of a token-image rule object
(source lines 881–889). -/
def tokenImageAnimation : Schema :=
  zRefineNonEmpty (zObject true
    [ ⟨"duration", true, zNumberChecks [positiveCheck]⟩
    , ⟨"transition", true, stringMin1⟩
    , ⟨"easing", true, ease⟩
    , ⟨"name", true, stringMin1⟩ ])

/-- The `subject` member of a token-image `ring` (source lines 892–898). -/
def ringSubject : Schema :=
  zRefineNonEmpty (zObject true
    [ ⟨"texture", false, filePath⟩
    , ⟨"scale", true, zNumber⟩ ])

/-- The `colors` member of a token-image `ring` (source lines 899–906). -/
def ringColors : Schema :=
  zRefineNonEmpty (zObject true
    [ ⟨"background", true, zString⟩
    , ⟨"ring", true, zString⟩ ])

/-- The `ring` member object of a token-image rule object
(source lines 890–910). -/
def ringObj : Schema :=
  zRefineNonEmpty (zObject true
    [ ⟨"subject", false, ringSubject⟩
    , ⟨"colors", true, ringColors⟩ ])

/-- The object alternative of a token-image rule (source lines 866–912). -/
def tokenImageRuleObject : Schema :=
  zObject true
    [ ⟨"key", true, JSONValue⟩
    , ⟨"label", true, JSONValue⟩
    , ⟨"slug", true, JSONValue⟩
    , ⟨"predicate", true, JSONValue⟩
    , ⟨"priority", true, JSONValue⟩
    , ⟨"ignored", true, JSONValue⟩
    , ⟨"requiresInvestment", true, JSONValue⟩
    , ⟨"requiresEquipped", true, JSONValue⟩
    , ⟨"removeUponCreate", true, JSONValue⟩
    , ⟨"value", false, filePath⟩
    , ⟨"scale", true, zNumber⟩
    , ⟨"tint", true, zString⟩
    , ⟨"alpha", true, zNumber⟩
    , ⟨"animation", false, tokenImageAnimation⟩
    , ⟨"ring", true, ringObj⟩ ]

/-- One entry of the `_tokenImages` array (source lines 852–918). -/
def tokenImageEntry : Schema :=
  zObject true
    [ ⟨"name", false, stringMin1⟩
    , ⟨"requires", false, stringMin1⟩
    , ⟨"uuid", false, zStringChecks [(isUuid, "invalid_string", "Must be a valid UUID.")]⟩
    , ⟨"rules", false,
        zRefineUnique (zArrayMin 1 (zOr tokenImageRuleTuple tokenImageRuleObject))⟩ ]

/-- Model of the exported `tokenImages` schema (source lines 849–922): a
plain (not `.strict()`) object whose `_tokenImages` member is a non-empty,
stringify-unique array of entries. -/
def tokenImages : Schema :=
  zObject false
    [⟨"_tokenImages", false, zRefineUnique (zArrayMin 1 tokenImageEntry)⟩]

/-- Result of `validateAnimationData`: `{success: true}` or
`{success: false, error: ZodError(issues)}`. -/
inductive ValidationResult where
  | ok : ValidationResult
  | err (issues : List Issue) : ValidationResult
deriving DecidableEq

/-- JavaScript `typeof` for a parsed JSON value (`typeof null` is "object"). -/
def typeofName : JSON → String
  | .str _ => "string"
  | .num _ => "number"
  | .bool _ => "boolean"
  | .null => "object"
  | .arr _ => "object"
  | .obj _ => "object"

/-- JavaScript `Array.isArray`. -/
def isArrayJSON : JSON → Bool
  | .arr _ => true
  | _ => false

/-- The `received` type reported when the root value is not a plain object,
exactly as the source computes it (line 944):
`data === Array.isArray(data) ? 'array' : data === 'null' ? 'null' : typeof data` —
note that this compares `data` itself against the boolean `Array.isArray(data)`
and against the string `'null'`. -/
def receivedName (data : JSON) : String :=
  if jsStrictEq data (.bool (isArrayJSON data)) then "array"
  else if jsStrictEq data (.str "null") then "null"
  else typeofName data

/-- The issue pushed when a top-level key is not a valid roll option
(source lines 961–968). -/
def keyIssues (key : String) : List Issue :=
  if (rollOption (.str key)).valid then []
  else [⟨"invalid_string", [PathElem.key key], "Must be a valid roll option.", ""⟩]

/-- The issues of the schema applied to a top-level value (source lines
970–981): a string value is validated as a roll-option alias, any other value
as `animationObjects`. -/
def valueSchemaIssues (value : JSON) : List Issue :=
  match value with
  | .str _ => (rollOption value).issues
  | _ => (animationObjects value).issues

/-- The value issues of one top-level key, each with the key prepended to its
path (source lines 975 and 979). -/
def valueIssues (key : String) (value : JSON) : List Issue :=
  (valueSchemaIssues value).map (Issue.prefixWith (PathElem.key key))

/-- The loop body of `validateAnimationData` for one own key (source lines
954–983): the reserved `_tokenImages` key validates the whole root object
against `tokenImages`; any other key is itself checked as a roll option and
its value validated with the key prepended to every issue path. -/
def issuesForKey (data : JSONFields) (key : String) (value : JSON) : List Issue :=
  if key == "_tokenImages" then (tokenImages (.obj data)).issues
  else keyIssues key ++ valueIssues key value

/-- Model of the exported `validateAnimationData` (source lines 936–995). -/
def validateAnimationData (data : JSON) : ValidationResult :=
  match data with
  | .obj fs =>
      let issues := fs.toList.flatMap (fun kv => issuesForKey fs kv.1 kv.2)
      if issues.isEmpty then .ok else .err issues
  | _ => .err [⟨"invalid_type", [], "JSON must represent an object.", receivedName data⟩]

/-- Modelled from the spec: `zodToJsonSchema` (from the external
`zod-to-json-schema` library, not among this repository's sources)
deterministically converts a schema into a JSON-Schema document — a pure
function of the static grammar that never inspects input data.  Only its
totality and determinism matter to the verified properties, so the document
contents are abstracted to a minimal JSON-Schema object. -/
def zodToJsonSchema (_schema : Schema) : JSON :=
  JSON.obj (.cons "type" (.str "object") .nil)

/-- Model of the exported `getJSONSchema` (source lines 1003–1019): the
`animations` and `tokenImages` names produce a JSON-Schema document; any other
name throws (`Except.error`) rather than reporting aggregated issues. -/
def getJSONSchema (schemaName : String) : Except String JSON :=
  match schemaName with
  | "animations" => .ok (zodToJsonSchema animations)
  | "tokenImages" => .ok (zodToJsonSchema tokenImages)
  | _ => .error "Unknown schema name"

/-- A `JSONList` with an empty `toList` is `nil`. -/
theorem JSONList.toList_eq_nil {xs : JSONList} (h : xs.toList = []) : xs = .nil := by
  cases xs with
  | nil => rfl
  | cons x tl => simp [JSONList.toList] at h

/-- The keys of an object are the first components of its member list. -/
theorem JSONFields.keys_eq_map : ∀ fs : JSONFields, fs.keys = fs.toList.map Prod.fst
  | .nil => rfl
  | .cons _ _ tl => by simp [JSONFields.keys, JSONFields.toList, keys_eq_map tl]

/-- A string list's deduplication preserves the length exactly when the list
has no duplicates. -/
theorem dedup_length_eq_iff_nodup (l : List String) :
    l.dedup.length = l.length ↔ l.Nodup := by
  constructor
  · intro h
    have := (List.dedup_sublist l).eq_of_length h
    rw [← this]
    exact List.nodup_dedup l
  · intro h
    rw [List.dedup_eq_self.mpr h]

/-- The `uniqueItems` helper succeeds exactly when no two elements of the array
share a `JSON.stringify` serialisation. -/
theorem uniqueItems_iff_nodup (xs : JSONList) :
    uniqueItems xs = true ↔ (xs.toList.map JSON.stringify).Nodup := by
  unfold uniqueItems
  rw [beq_iff_eq, ← List.length_map xs.toList JSON.stringify,
    dedup_length_eq_iff_nodup]

/-- A union is valid exactly when one of its alternatives is. -/
theorem zUnionRes_valid (rs : List ZRes) : (zUnionRes rs).valid = rs.any ZRes.valid := by
  unfold zUnionRes
  by_cases h : rs.any ZRes.valid
  · simp [h, ZRes.valid, ZRes.ok]
  · rw [if_neg h]
    cases hf : rs.find? (fun r => !r.aborted) with
    | none => simp [ZRes.valid, h]
    | some r =>
        have hmem := List.mem_of_find?_eq_some hf
        have : r.valid = false := by
          by_contra hv
          exact h (List.any_eq_true.mpr ⟨r, hmem, by simpa using hv⟩)
        simp [this, h]

/-- A `.strict()` object schema reports at least one issue whenever the value
has a key outside the shape. -/
theorem zObject_strict_unknown_key (shape : List ZField) (fs : JSONFields) (k : String)
    (v : JSON) (hmem : (k, v) ∈ fs.toList)
    (hk : (shape.map ZField.name).contains k = false) :
    (zObject true shape (.obj fs)).issues ≠ [] := by
  simp only [zObject, zObjResults]
  intro h
  rcases List.append_eq_nil.mp h with ⟨-, h2⟩
  have hkeys : k ∈ fs.keys := by
    rw [JSONFields.keys_eq_map]
    exact List.mem_map.mpr ⟨(k, v), hmem, rfl⟩
  have hpred : (!(shape.map ZField.name).contains k) = true := by rw [hk]; rfl
  have hunk : k ∈ fs.keys.filter (fun k' => !(shape.map ZField.name).contains k') :=
    List.mem_filter.mpr ⟨hkeys, hpred⟩
  have hne : fs.keys.filter (fun k' => !(shape.map ZField.name).contains k') ≠ [] :=
    List.ne_nil_of_mem hunk
  simp only [Bool.true_and] at h2
  rw [if_pos (by simpa using hne)] at h2
  exact absurd h2 (by simp)

/-- A refinement result is valid exactly when its base is valid and the
refinement predicate passed. -/
theorem ZRes.withRefine_valid_iff (r : ZRes) (pass : Bool) (path : List PathElem)
    (msg : String) :
    (r.withRefine pass path msg).valid = true ↔ r.valid = true ∧ pass = true := by
  unfold ZRes.withRefine ZRes.valid
  by_cases ha : r.aborted
  · simp [ha]
  · by_cases hp : pass = true
    · simp [ha, hp]
    · simp [ha, hp, Bool.eq_false_iff.mpr hp]

/-- A valid result reports no issues. -/
theorem ZRes.valid_issues {r : ZRes} (h : r.valid = true) : r.issues = [] := by
  unfold ZRes.valid at h
  rcases (Bool.and_eq_true _ _).mp h with ⟨-, h2⟩
  exact List.isEmpty_iff.mp h2

/-- A number schema reporting no issues received a number passing every check. -/
theorem zNumberChecks_issues_nil {checks : List ((Int → Bool) × String × String)}
    {v : JSON} (h : (zNumberChecks checks v).issues = []) :
    ∃ n, v = JSON.num n ∧ ∀ c ∈ checks, c.1 n = true := by
  cases v with
  | num n =>
      refine ⟨n, rfl, fun c hc => ?_⟩
      by_contra hcf
      have hmem : (⟨c.2.1, [], c.2.2, ""⟩ : Issue) ∈ (zNumberChecks checks (.num n)).issues := by
        simp only [zNumberChecks, List.mem_filterMap]
        exact ⟨c, hc, by simp [Bool.eq_false_iff.mpr hcf]⟩
      rw [h] at hmem
      exact absurd hmem (List.not_mem_nil _)
  | str s => simp [zNumberChecks, zInvalidType] at h
  | bool b => simp [zNumberChecks, zInvalidType] at h
  | null => simp [zNumberChecks, zInvalidType] at h
  | arr xs => simp [zNumberChecks, zInvalidType] at h
  | obj fs => simp [zNumberChecks, zInvalidType] at h

/-- C10: `validateAnimationData` accepts the empty document: applied to `{}` (a
plain object with no own keys) it returns success, even though the nested parts
of the grammar (animation-object arrays, predicate arrays) reject emptiness. -/
theorem validateAnimationData_empty_document :
    validateAnimationData (.obj .nil) = .ok
    ∧ (animationObjects (.arr .nil)).valid = false
    ∧ (predicateArray (.arr .nil)).valid = false
    ∧ (animationObject (.obj .nil)).valid = false := by decide

/-- C8: on the input `{"foo": "not-a-valid-roll-option!"}`,
`validateAnimationData` fails with exactly one issue, an `invalid_string`
(string-format) issue at path `["foo"]`; the key `"foo"` is itself a valid
roll option and contributes no issue. -/
theorem validateAnimationData_invalid_alias_single_issue :
    validateAnimationData (.obj (.cons "foo" (.str "not-a-valid-roll-option!") .nil))
      = .err [⟨"invalid_string", [PathElem.key "foo"],
          "String must be a valid roll option.", ""⟩]
    ∧ isRollOption "foo" = true
    ∧ keyIssues "foo" = [] := by decide

/-- C2 (failing input evaluated): on an array input and on `null`,
`validateAnimationData` reports the single empty-path `invalid_type` issue, but
its `received` type is `"object"` in both cases, not `"array"`/`"null"` — the
source's ternary compares `data` itself with the boolean `Array.isArray(data)`
and with the string `'null'`, so the `"array"` branch is reached only by the
boolean `false` and the `"null"` branch only by the string `"null"`. -/
theorem validateAnimationData_root_received_object :
    validateAnimationData (.arr .nil)
      = .err [⟨"invalid_type", [], "JSON must represent an object.", "object"⟩]
    ∧ validateAnimationData .null
      = .err [⟨"invalid_type", [], "JSON must represent an object.", "object"⟩]
    ∧ receivedName (.arr (.cons (.num 1) .nil)) = "object"
    ∧ receivedName (.bool false) = "array"
    ∧ receivedName (.str "null") = "null" := by decide

/-- C9: `getJSONSchema` produces a JSON-Schema document for the names
`animations` and `tokenImages`, and fails with the hard error
`Unknown schema name` for every other name. -/
theorem getJSONSchema_two_names (s : String)
    (h1 : s ≠ "animations") (h2 : s ≠ "tokenImages") :
    (∃ doc, getJSONSchema "animations" = Except.ok doc)
    ∧ (∃ doc, getJSONSchema "tokenImages" = Except.ok doc)
    ∧ getJSONSchema s = Except.error "Unknown schema name" := by
  refine ⟨⟨_, rfl⟩, ⟨_, rfl⟩, ?_⟩
  unfold getJSONSchema
  split
  · exact absurd rfl h1
  · exact absurd rfl h2
  · rfl

/-- C9 witness: the name `bogus` is neither recognised name and is rejected. -/
theorem getJSONSchema_two_names_witness :
    (∃ doc, getJSONSchema "animations" = Except.ok doc)
    ∧ (∃ doc, getJSONSchema "tokenImages" = Except.ok doc)
    ∧ getJSONSchema "bogus" = Except.error "Unknown schema name" :=
  getJSONSchema_two_names "bogus" (by decide) (by decide)

/-- C5 (counterexample): the arrays compared by `uniqueItems` use
`JSON.stringify`, which serialises object keys in insertion order, so an array
holding two deep-equal objects whose keys merely appear in different orders
passes the refinement even though the claim requires it to fail. -/
theorem uniqueItems_passes_deepEqual_pair :
    JSON.deepEqual (.obj (.cons "a" (.num 1) (.cons "b" (.num 2) .nil)))
        (.obj (.cons "b" (.num 2) (.cons "a" (.num 1) .nil))) = true
    ∧ uniqueItems (.cons (.obj (.cons "a" (.num 1) (.cons "b" (.num 2) .nil)))
        (.cons (.obj (.cons "b" (.num 2) (.cons "a" (.num 1) .nil))) .nil)) = true := by
  decide

/-- C5 (amended): the `uniqueItems` refinement compares elements by their
`JSON.stringify` serialisation: it passes exactly when no two elements share a
serialisation (in particular it fails whenever two elements are identical), and
reordering the elements of a passing array never makes it fail; but key order
inside nested objects changes the serialisation, so deep-equal objects with
differently ordered keys count as distinct. -/
theorem uniqueItems_by_serialization (xs ys : JSONList)
    (hperm : xs.toList.Perm ys.toList) :
    (uniqueItems xs = true ↔ (xs.toList.map JSON.stringify).Nodup)
    ∧ (uniqueItems xs = true → uniqueItems ys = true) := by
  refine ⟨uniqueItems_iff_nodup xs, fun h => ?_⟩
  exact (uniqueItems_iff_nodup ys).mpr
    ((hperm.map JSON.stringify).nodup_iff.mp ((uniqueItems_iff_nodup xs).mp h))

/-- C5 witness: the two-element array `[1, 2]` and its reversal. -/
theorem uniqueItems_by_serialization_witness :
    (uniqueItems (.cons (.num 1) (.cons (.num 2) .nil)) = true ↔
      ((JSONList.cons (.num 1) (.cons (.num 2) .nil)).toList.map JSON.stringify).Nodup)
    ∧ (uniqueItems (.cons (.num 1) (.cons (.num 2) .nil)) = true →
        uniqueItems (.cons (.num 2) (.cons (.num 1) .nil)) = true) :=
  uniqueItems_by_serialization _ _
    (by simp only [JSONList.toList]
        exact List.Perm.swap (JSON.num 2) (JSON.num 1) [])

/-- C4 (counterexample): the root object of the `tokenImages` sub-schema is not
`.strict()`: a root object holding a fully valid `_tokenImages` array plus an
unrecognised sibling key `extra` passes the sub-schema with no issues, so
unknown sibling keys are not rejected by it. -/
theorem tokenImages_accepts_unknown_sibling_key :
    (tokenImages (.obj
      (.cons "_tokenImages" (.arr (.cons (.obj
        (.cons "name" (.str "a")
        (.cons "requires" (.str "b")
        (.cons "uuid" (.str "x.y")
        (.cons "rules" (.arr (.cons (.arr
          (.cons (.str "a") (.cons (.str "a1/b.png") (.cons (.num 1)
          (.cons (.str "a1/c.png") (.cons (.num 2) .nil)))))) .nil)) .nil))))) .nil))
      (.cons "extra" (.num 1) .nil)))) = ZRes.ok := by decide

/-- C4 (amended): below the root the token-images sub-schema is closed — an
entry object containing any unrecognised key fails validation — but the root
object holding `_tokenImages` is not strict: its result depends only on the
`_tokenImages` member, so unknown sibling keys are ignored (stripped) by the
sub-schema rather than rejected. -/
theorem tokenImages_root_loose_strict_below (fs gs entry : JSONFields)
    (k : String) (v : JSON)
    (hfind : fs.find? "_tokenImages" = gs.find? "_tokenImages")
    (hmem : (k, v) ∈ entry.toList)
    (hk : (["name", "requires", "uuid", "rules"] : List String).contains k = false) :
    tokenImages (.obj fs) = tokenImages (.obj gs)
    ∧ (tokenImageEntry (.obj entry)).issues ≠ [] := by
  constructor
  · simp [tokenImages, zObject, zObjResults, fieldResult, hfind]
  · exact zObject_strict_unknown_key _ _ _ _ hmem hk

/-- C4 witness: two roots agreeing on `_tokenImages` (one with an extra
sibling), and an entry object with the unrecognised key `extra`. -/
theorem tokenImages_root_loose_strict_below_witness :
    tokenImages (.obj (.cons "_tokenImages" (.arr .nil) .nil))
      = tokenImages (.obj (.cons "_tokenImages" (.arr .nil) (.cons "extra" (.num 1) .nil)))
    ∧ (tokenImageEntry (.obj (.cons "extra" (.num 1) .nil))).issues ≠ [] :=
  tokenImages_root_loose_strict_below
    (.cons "_tokenImages" (.arr .nil) .nil)
    (.cons "_tokenImages" (.arr .nil) (.cons "extra" (.num 1) .nil))
    (.cons "extra" (.num 1) .nil) "extra" (.num 1) (by decide) (by decide) (by decide)

/-- C1: `validateAnimationData` is total and returns success or a non-empty
error; on a plain object its error issues are exactly the concatenation, over
every own key in order, of the issues produced for that key alone, success
holding exactly when that concatenation is empty; and the issues produced for
one key do not depend on the rest of the document (for the reserved
`_tokenImages` key, they depend only on that key's own member), so a malformed
entry under one key never suppresses or alters another key's issues. -/
theorem validateAnimationData_concat_per_key (d : JSON) (fs fs1 fs2 : JSONFields)
    (k : String) (v : JSON) (hk : k ≠ "_tokenImages")
    (hfind : fs1.find? "_tokenImages" = fs2.find? "_tokenImages") :
    (validateAnimationData d = .ok
      ∨ ∃ is, validateAnimationData d = .err is ∧ is ≠ [])
    ∧ (validateAnimationData (.obj fs) = .ok
        ∨ validateAnimationData (.obj fs)
            = .err (fs.toList.flatMap (fun kv => issuesForKey fs kv.1 kv.2)))
    ∧ (validateAnimationData (.obj fs) = .ok
        ↔ ∀ kv ∈ fs.toList, issuesForKey fs kv.1 kv.2 = [])
    ∧ issuesForKey fs1 k v = issuesForKey fs2 k v
    ∧ issuesForKey fs1 "_tokenImages" v = issuesForKey fs2 "_tokenImages" v := by
  have hbranch : ∀ gs : JSONFields,
      validateAnimationData (.obj gs)
        = if (gs.toList.flatMap (fun kv => issuesForKey gs kv.1 kv.2)).isEmpty
          then .ok
          else .err (gs.toList.flatMap (fun kv => issuesForKey gs kv.1 kv.2)) := by
    intro gs
    rfl
  refine ⟨?_, ?_, ?_, ?_, ?_⟩
  · cases d with
    | obj gs =>
        rw [hbranch gs]
        by_cases h : (gs.toList.flatMap (fun kv => issuesForKey gs kv.1 kv.2)).isEmpty
        · exact Or.inl (by rw [if_pos h])
        · exact Or.inr ⟨_, by rw [if_neg h], by simpa using h⟩
    | str s => exact Or.inr ⟨_, rfl, by simp⟩
    | num n => exact Or.inr ⟨_, rfl, by simp⟩
    | bool b => exact Or.inr ⟨_, rfl, by simp⟩
    | null => exact Or.inr ⟨_, rfl, by simp⟩
    | arr xs => exact Or.inr ⟨_, rfl, by simp⟩
  · rw [hbranch fs]
    by_cases h : (fs.toList.flatMap (fun kv => issuesForKey fs kv.1 kv.2)).isEmpty
    · exact Or.inl (by rw [if_pos h])
    · exact Or.inr (by rw [if_neg h])
  · rw [hbranch fs]
    by_cases h : (fs.toList.flatMap (fun kv => issuesForKey fs kv.1 kv.2)).isEmpty
    · rw [if_pos h]
      simp only [List.isEmpty_iff] at h
      simpa [List.flatMap_eq_nil_iff] using h
    · rw [if_neg h]
      simp only [List.isEmpty_iff] at h
      constructor
      · intro hcontra
        exact absurd hcontra (by simp)
      · intro hall
        exact absurd (List.flatMap_eq_nil_iff.mpr hall) h
  · simp only [issuesForKey]
    rw [if_neg (by simpa using hk), if_neg (by simpa using hk)]
  · simp [issuesForKey, tokenImages, zObject, zObjResults, fieldResult, hfind]

/-- C1 witness: a one-entry document and the independence of the key `foo`
from two unrelated documents. -/
theorem validateAnimationData_concat_per_key_witness :
    (validateAnimationData (.str "x") = .ok
      ∨ ∃ is, validateAnimationData (.str "x") = .err is ∧ is ≠ [])
    ∧ (validateAnimationData (.obj (.cons "foo" (.str "bar") .nil)) = .ok
        ∨ validateAnimationData (.obj (.cons "foo" (.str "bar") .nil))
            = .err ((JSONFields.cons "foo" (.str "bar") .nil).toList.flatMap
                (fun kv => issuesForKey (.cons "foo" (.str "bar") .nil) kv.1 kv.2)))
    ∧ (validateAnimationData (.obj (.cons "foo" (.str "bar") .nil)) = .ok
        ↔ ∀ kv ∈ (JSONFields.cons "foo" (.str "bar") .nil).toList,
            issuesForKey (.cons "foo" (.str "bar") .nil) kv.1 kv.2 = [])
    ∧ issuesForKey .nil "foo" (.str "bar")
        = issuesForKey (.cons "x" .null .nil) "foo" (.str "bar")
    ∧ issuesForKey .nil "_tokenImages" (.str "bar")
        = issuesForKey (.cons "x" .null .nil) "_tokenImages" (.str "bar") :=
  validateAnimationData_concat_per_key (.str "x") (.cons "foo" (.str "bar") .nil)
    .nil (.cons "x" .null .nil) "foo" (.str "bar") (by decide) (by decide)

/-- C3: for a non-reserved top-level key, the loop body's issues are the key's
own roll-option check followed by the value issues, and every value issue is
exactly an issue of the value's schema (the roll-option alias schema for a
string value, the `animationObjects` schema otherwise) with the key prepended
to its path. -/
theorem valueIssues_key_prefixed (d : JSONFields) (k : String) (v : JSON) (i : Issue)
    (hk : k ≠ "_tokenImages") :
    issuesForKey d k v = keyIssues k ++ valueIssues k v
    ∧ (i ∈ valueIssues k v ↔
        ∃ inner ∈ valueSchemaIssues v,
          i = { inner with path := PathElem.key k :: inner.path }) := by
  constructor
  · simp only [issuesForKey]
    rw [if_neg (by simpa using hk)]
  · simp only [valueIssues, List.mem_map, Issue.prefixWith]
    constructor
    · rintro ⟨inner, hmem, rfl⟩
      exact ⟨inner, hmem, rfl⟩
    · rintro ⟨inner, hmem, rfl⟩
      exact ⟨inner, hmem, rfl⟩

/-- C3 witness: the invalid alias value `"x!"` under the key `foo`. -/
theorem valueIssues_key_prefixed_witness :
    issuesForKey .nil "foo" (.str "x!") = keyIssues "foo" ++ valueIssues "foo" (.str "x!")
    ∧ ((⟨"invalid_string", [PathElem.key "foo"], "String must be a valid roll option.", ""⟩ : Issue)
        ∈ valueIssues "foo" (.str "x!") ↔
        ∃ inner ∈ valueSchemaIssues (.str "x!"),
          (⟨"invalid_string", [PathElem.key "foo"], "String must be a valid roll option.", ""⟩ : Issue)
            = { inner with path := PathElem.key "foo" :: inner.path }) :=
  valueIssues_key_prefixed .nil "foo" (.str "x!")
    ⟨"invalid_string", [PathElem.key "foo"], "String must be a valid roll option.", ""⟩
    (by decide)

/-- C7: a Blur filter's options object validates only when it does not combine
`blur` with `blurX` or `blurY`: any options object containing `blur` together
with `blurX` (or `blurY`) is rejected, and when the combined members are
otherwise in bounds the rejection is exactly the cross-field `custom` issue at
the `blur` path (surfacing at `options.blur` through the filter union), while
`blur` alone, or `blurX`/`blurY` without `blur`, is accepted when the
individual positivity bounds hold. -/
theorem blur_exclusion_rule (fs : JSONFields) (vb vx vy : JSON) (b x y : Int)
    (hb : fs.find? "blur" = some vb)
    (hxy : fs.find? "blurX" = some vx ∨ fs.find? "blurY" = some vy) :
    (blurOptions (.obj fs)).valid = false
    ∧ (0 < b → 0 < x →
        (blurOptions (.obj (.cons "blur" (.num b) (.cons "blurX" (.num x) .nil)))).issues
          = [blurExclusionIssue])
    ∧ (0 < b → 0 < y →
        (blurOptions (.obj (.cons "blur" (.num b) (.cons "blurY" (.num y) .nil)))).issues
          = [blurExclusionIssue])
    ∧ (0 < b → blurOptions (.obj (.cons "blur" (.num b) .nil)) = ZRes.ok)
    ∧ (0 < x → 0 < y →
        blurOptions (.obj (.cons "blurX" (.num x) (.cons "blurY" (.num y) .nil))) = ZRes.ok)
    ∧ (0 < b → 0 < x →
        (filterSchema (.obj (.cons "type" (.str "Blur") (.cons "options"
          (.obj (.cons "blur" (.num b) (.cons "blurX" (.num x) .nil))) .nil)))).issues
          = [⟨"custom", [PathElem.key "options", PathElem.key "blur"],
              "`blur` cannot be used at the same time as `blurX` or `blurY`.", ""⟩]) := by
  refine ⟨?_, ?_, ?_, ?_, ?_, ?_⟩
  · by_contra hv
    rw [Bool.not_eq_false] at hv
    unfold blurOptions at hv
    rw [ZRes.withRefine_valid_iff] at hv
    obtain ⟨hbase, hpass⟩ := hv
    unfold zRefineNonEmpty at hbase
    rw [ZRes.withRefine_valid_iff] at hbase
    obtain ⟨hobj, -⟩ := hbase
    have hnil := ZRes.valid_issues hobj
    simp only [zObject, zObjResults] at hnil
    rcases List.append_eq_nil.mp hnil with ⟨hfields, -⟩
    have hall := List.flatMap_eq_nil_iff.mp hfields
    have hmemB : (⟨"blur", true, zNumberChecks [positiveCheck]⟩ : ZField) ∈ blurOptionsShape :=
      List.mem_cons_of_mem _ (List.mem_cons_self _ _)
    have hresB := hall _ (List.mem_map_of_mem (fieldResult fs) hmemB)
    simp only [fieldResult, hb, ZRes.prefixWith] at hresB
    rw [List.map_eq_nil_iff] at hresB
    obtain ⟨nb, rfl, hchB⟩ := zNumberChecks_issues_nil hresB
    have hposB : 0 < nb := by
      have := hchB positiveCheck (List.mem_singleton_self _)
      simpa [positiveCheck] using this
    rcases hxy with hx | hy
    · have hmemX : (⟨"blurX", true, zNumberChecks [positiveCheck]⟩ : ZField) ∈ blurOptionsShape :=
        List.mem_cons_of_mem _ (List.mem_cons_of_mem _ (List.mem_cons_self _ _))
      have hresX := hall _ (List.mem_map_of_mem (fieldResult fs) hmemX)
      simp only [fieldResult, hx, ZRes.prefixWith] at hresX
      rw [List.map_eq_nil_iff] at hresX
      obtain ⟨nx, rfl, hchX⟩ := zNumberChecks_issues_nil hresX
      have hposX : 0 < nx := by
        have := hchX positiveCheck (List.mem_singleton_self _)
        simpa [positiveCheck] using this
      simp [blurExclusion, hb, hx, truthy] at hpass
      omega
    · have hmemY : (⟨"blurY", true, zNumberChecks [positiveCheck]⟩ : ZField) ∈ blurOptionsShape :=
        List.mem_cons_of_mem _ (List.mem_cons_of_mem _ (List.mem_cons_of_mem _
          (List.mem_cons_self _ _)))
      have hresY := hall _ (List.mem_map_of_mem (fieldResult fs) hmemY)
      simp only [fieldResult, hy, ZRes.prefixWith] at hresY
      rw [List.map_eq_nil_iff] at hresY
      obtain ⟨ny, rfl, hchY⟩ := zNumberChecks_issues_nil hresY
      have hposY : 0 < ny := by
        have := hchY positiveCheck (List.mem_singleton_self _)
        simpa [positiveCheck] using this
      simp [blurExclusion, hb, hy, truthy] at hpass
      omega
  · intro hb0 hx0
    have hb1 : decide (0 < b) = true := decide_eq_true hb0
    have hx1 : decide (0 < x) = true := decide_eq_true hx0
    have hb2 : (b != 0) = true := by simp [bne_iff_ne]; omega
    have hx2 : (x != 0) = true := by simp [bne_iff_ne]; omega
    simp [blurOptions, blurOptionsShape, zRefineNonEmpty, zObject, zObjResults, fieldResult,
      zNumberChecks, positiveCheck, ZRes.withRefine, blurExclusion, truthy, JSONFields.find?,
      jsonNonEmpty, JSONFields.keys, ZRes.prefixWith, hb1, hx1, hb2, hx2, blurExclusionIssue,
      unrecognizedKeysIssue]
    rfl
  · intro hb0 hy0
    have hb1 : decide (0 < b) = true := decide_eq_true hb0
    have hy1 : decide (0 < y) = true := decide_eq_true hy0
    have hb2 : (b != 0) = true := by simp [bne_iff_ne]; omega
    have hy2 : (y != 0) = true := by simp [bne_iff_ne]; omega
    simp [blurOptions, blurOptionsShape, zRefineNonEmpty, zObject, zObjResults, fieldResult,
      zNumberChecks, positiveCheck, ZRes.withRefine, blurExclusion, truthy, JSONFields.find?,
      jsonNonEmpty, JSONFields.keys, ZRes.prefixWith, hb1, hy1, hb2, hy2, blurExclusionIssue,
      unrecognizedKeysIssue]
    rfl
  · intro hb0
    have hb1 : decide (0 < b) = true := decide_eq_true hb0
    have hb2 : (b != 0) = true := by simp [bne_iff_ne]; omega
    simp [blurOptions, blurOptionsShape, zRefineNonEmpty, zObject, zObjResults, fieldResult,
      zNumberChecks, positiveCheck, ZRes.withRefine, blurExclusion, truthy, JSONFields.find?,
      jsonNonEmpty, JSONFields.keys, ZRes.prefixWith, hb1, hb2, unrecognizedKeysIssue]
    rfl
  · intro hx0 hy0
    have hx1 : decide (0 < x) = true := decide_eq_true hx0
    have hy1 : decide (0 < y) = true := decide_eq_true hy0
    have hx2 : (x != 0) = true := by simp [bne_iff_ne]; omega
    have hy2 : (y != 0) = true := by simp [bne_iff_ne]; omega
    simp [blurOptions, blurOptionsShape, zRefineNonEmpty, zObject, zObjResults, fieldResult,
      zNumberChecks, positiveCheck, ZRes.withRefine, blurExclusion, truthy, JSONFields.find?,
      jsonNonEmpty, JSONFields.keys, ZRes.prefixWith, hx1, hy1, hx2, hy2, unrecognizedKeysIssue]
    rfl
  · intro hb0 hx0
    have hb1 : decide (0 < b) = true := decide_eq_true hb0
    have hx1 : decide (0 < x) = true := decide_eq_true hx0
    have hb2 : (b != 0) = true := by simp [bne_iff_ne]; omega
    have hx2 : (x != 0) = true := by simp [bne_iff_ne]; omega
    simp [filterSchema, filterBlur, blurOptions, blurOptionsShape, zRefineNonEmpty, zObject,
      zObjResults, fieldResult, zNumberChecks, positiveCheck, ZRes.withRefine, blurExclusion,
      truthy, JSONFields.find?, jsonNonEmpty, JSONFields.keys, ZRes.prefixWith, zLiteralStr,
      hb1, hx1, hb2, hx2, blurExclusionIssue, unrecognizedKeysIssue]
    rfl

/-- C7 witness: concrete combined and separate Blur options. -/
theorem blur_exclusion_rule_witness :
    ((blurOptions (.obj (.cons "blur" (.num 3) (.cons "blurX" (.num 2) .nil)))).valid = false
    ∧ (0 < (3 : Int) → 0 < (2 : Int) →
        (blurOptions (.obj (.cons "blur" (.num 3) (.cons "blurX" (.num 2) .nil)))).issues
          = [blurExclusionIssue])
    ∧ (0 < (3 : Int) → 0 < (5 : Int) →
        (blurOptions (.obj (.cons "blur" (.num 3) (.cons "blurY" (.num 5) .nil)))).issues
          = [blurExclusionIssue])
    ∧ (0 < (3 : Int) → blurOptions (.obj (.cons "blur" (.num 3) .nil)) = ZRes.ok)
    ∧ (0 < (2 : Int) → 0 < (5 : Int) →
        blurOptions (.obj (.cons "blurX" (.num 2) (.cons "blurY" (.num 5) .nil))) = ZRes.ok)
    ∧ (0 < (3 : Int) → 0 < (2 : Int) →
        (filterSchema (.obj (.cons "type" (.str "Blur") (.cons "options"
          (.obj (.cons "blur" (.num 3) (.cons "blurX" (.num 2) .nil))) .nil)))).issues
          = [⟨"custom", [PathElem.key "options", PathElem.key "blur"],
              "`blur` cannot be used at the same time as `blurX` or `blurY`.", ""⟩])) :=
  blur_exclusion_rule (.cons "blur" (.num 3) (.cons "blurX" (.num 2) .nil))
    (.num 3) (.num 2) (.num 5) 3 2 5 (by decide) (Or.inl (by decide))

/-- The roll-option schema accepts exactly the strings matching the
roll-option pattern. -/
theorem rollOption_valid_iff (v : JSON) :
    (rollOption v).valid = true ↔ ∃ s, v = JSON.str s ∧ isRollOption s = true := by
  cases v with
  | str s =>
      by_cases h : isRollOption s = true
      · simp [rollOption, zStringChecks, ZRes.valid, h]
      · simp [rollOption, zStringChecks, ZRes.valid, h, Bool.eq_false_iff.mpr h]
  | num n => simp [rollOption, zStringChecks, zInvalidType, ZRes.valid]
  | bool b => simp [rollOption, zStringChecks, zInvalidType, ZRes.valid]
  | null => simp [rollOption, zStringChecks, zInvalidType, ZRes.valid]
  | arr xs => simp [rollOption, zStringChecks, zInvalidType, ZRes.valid]
  | obj fs => simp [rollOption, zStringChecks, zInvalidType, ZRes.valid]

/-- The bare number schema accepts exactly numbers. -/
theorem zNumber_valid_iff (v : JSON) :
    (zNumber v).valid = true ↔ ∃ n, v = JSON.num n := by
  cases v <;> simp [zNumber, zNumberChecks, zInvalidType, ZRes.valid]

/-- A valid predicate-argument array is non-empty and stringify-unique. -/
theorem predicateArray_valid {args : JSONList}
    (h : (predicateArray (.arr args)).valid = true) :
    args ≠ JSONList.nil ∧ (args.toList.map JSON.stringify).Nodup := by
  simp only [predicateArray] at h
  rw [ZRes.withRefine_valid_iff] at h
  obtain ⟨hbase, huniq⟩ := h
  refine ⟨?_, (uniqueItems_iff_nodup args).mp huniq⟩
  intro hnil
  subst hnil
  have := ZRes.valid_issues hbase
  simp [zArrayResults, JSONList.length, JSONList.toList] at this

/-- A predicate object holding one combinator key validates only through that
combinator's argument-array schema. -/
theorem predicate_combinator_needs_array (ck : String) (args : JSONList)
    (hck : ck ∈ (["and", "or", "xor", "nand", "nor", "iff"] : List String))
    (h : (predicate (.obj (.cons ck (.arr args) .nil))).valid = true) :
    (predicateArray (.arr args)).valid = true := by
  fin_cases hck <;>
  · rw [predicate] at h
    rw [zUnionRes_valid] at h
    simp [rollOption, zStringChecks, zInvalidType, ZRes.valid, comparisonBranch, zObject,
      zObjResults, fieldResult, JSONFields.find?, JSONFields.keys, predicateEvalFields,
      evalFind, zObjPre, preFieldResult, ZRes.prefixWith, unrecognizedKeysIssue] at h
    simp [ZRes.valid, h.1, h.2]

/-- A predicate object holding one comparison key validates only through the
comparison 2-tuple schema. -/
theorem predicate_comparison_is_tuple (k : String) (v : JSON)
    (hk : k ∈ (["eq", "gt", "gte", "lt", "lte"] : List String))
    (h : (predicate (.obj (.cons k v .nil))).valid = true) :
    (zTuple [rollOption, zOr rollOption zNumber] v).valid = true := by
  have hro : ∀ gs : JSONFields, (rollOption (.obj gs)).aborted = true := by
    intro gs
    simp [rollOption, zStringChecks, zInvalidType]
  fin_cases hk <;>
  · rw [predicate] at h
    rw [zUnionRes_valid] at h
    simp [hro, comparisonBranch, zObject, zObjResults, fieldResult, JSONFields.find?,
      JSONFields.keys, predicateEvalFields, evalFind, zObjPre, preFieldResult,
      ZRes.prefixWith, unrecognizedKeysIssue, ZRes.valid] at h
    simp [ZRes.valid, h.1, h.2]

/-- A valid comparison argument is exactly a 2-tuple of a roll option and a
roll option or number. -/
theorem zTuple2_cmp_valid (v : JSON)
    (h : (zTuple [rollOption, zOr rollOption zNumber] v).valid = true) :
    ∃ a b, v = JSON.arr (.cons (.str a) (.cons b .nil)) ∧ isRollOption a = true
      ∧ ((∃ s, b = JSON.str s ∧ isRollOption s = true) ∨ ∃ n, b = JSON.num n) := by
  cases v with
  | arr xs =>
      cases xs with
      | nil => simp [zTuple, JSONList.toList, ZRes.valid] at h
      | cons a tl =>
          cases tl with
          | nil => simp [zTuple, JSONList.toList, ZRes.valid] at h
          | cons b tl2 =>
              cases tl2 with
              | cons c tl3 =>
                  have hlen : ¬ (tl3.toList.length + 1 + 1 + 1 < 2) := by omega
                  simp [zTuple, JSONList.toList, ZRes.valid, hlen] at h
              | nil =>
                  simp [zTuple, JSONList.toList, ZRes.valid, List.enum, ZRes.prefixWith] at h
                  obtain ⟨⟨habA, habB⟩, h1, h2⟩ := h
                  have ha : (rollOption a).valid = true := by
                    simp [ZRes.valid, habA, h1]
                  have hb : (zOr rollOption zNumber b).valid = true := by
                    simp [ZRes.valid, habB, h2]
                  obtain ⟨s, rfl, hs⟩ := (rollOption_valid_iff a).mp ha
                  refine ⟨s, b, rfl, hs, ?_⟩
                  unfold zOr zUnion at hb
                  rw [zUnionRes_valid] at hb
                  simp at hb
                  rcases hb with hb1 | hb2
                  · exact Or.inl ((rollOption_valid_iff b).mp hb1)
                  · exact Or.inr ((zNumber_valid_iff b).mp hb2)
  | str s => simp [zTuple, zInvalidType, ZRes.valid] at h
  | num n => simp [zTuple, zInvalidType, ZRes.valid] at h
  | bool b => simp [zTuple, zInvalidType, ZRes.valid] at h
  | null => simp [zTuple, zInvalidType, ZRes.valid] at h
  | obj fs => simp [zTuple, zInvalidType, ZRes.valid] at h

/-- C6 (counterexample): a combinator whose two sub-predicates are deep
value-equal but spell their keys in different orders still validates, because
the uniqueness refinement compares `JSON.stringify` serialisations; so
"contains no two structurally-equal sub-predicates" is not necessary for
validation as the claim states. -/
theorem predicate_combinator_accepts_deepEqual_members :
    (predicate (.obj (.cons "and" (.arr
      (.cons (.obj (.cons "if" (.str "a") (.cons "then" (.str "b") .nil)))
      (.cons (.obj (.cons "then" (.str "b") (.cons "if" (.str "a") .nil))) .nil))) .nil))).valid
      = true
    ∧ JSON.deepEqual
        (.obj (.cons "if" (.str "a") (.cons "then" (.str "b") .nil)))
        (.obj (.cons "then" (.str "b") (.cons "if" (.str "a") .nil))) = true := by decide

/-- C6 (amended): a predicate combinator object validates only when its
argument array is non-empty and contains no two sub-predicates with the same
`JSON.stringify` serialisation, and a comparison form validates only a 2-tuple
of a roll-option identifier and a roll-option identifier or number — so
`eq: ["a", "b"]` passes while the arity-3 `eq: ["a", "a", "a"]` fails. -/
theorem predicate_combinator_comparison_shape (ck k : String) (args : JSONList) (v : JSON)
    (hck : ck ∈ (["and", "or", "xor", "nand", "nor", "iff"] : List String))
    (hk : k ∈ (["eq", "gt", "gte", "lt", "lte"] : List String)) :
    ((predicate (.obj (.cons ck (.arr args) .nil))).valid = true →
        args ≠ JSONList.nil ∧ (args.toList.map JSON.stringify).Nodup)
    ∧ ((predicate (.obj (.cons k v .nil))).valid = true →
        ∃ a b, v = JSON.arr (.cons (.str a) (.cons b .nil)) ∧ isRollOption a = true
          ∧ ((∃ s, b = JSON.str s ∧ isRollOption s = true) ∨ ∃ n, b = JSON.num n))
    ∧ (predicate (.obj (.cons "eq"
        (.arr (.cons (.str "a") (.cons (.str "b") .nil))) .nil))).valid = true
    ∧ (predicate (.obj (.cons "eq"
        (.arr (.cons (.str "a") (.cons (.str "a") (.cons (.str "a") .nil)))) .nil))).valid
        = false :=
  ⟨fun h => predicateArray_valid (predicate_combinator_needs_array ck args hck h),
    fun h => zTuple2_cmp_valid v (predicate_comparison_is_tuple k v hk h),
    by decide, by decide⟩

/-- C6 witness: the `and` combinator with a singleton argument and the `eq`
comparison with a well-formed pair. -/
theorem predicate_combinator_comparison_shape_witness :
    (((predicate (.obj (.cons "and" (.arr (.cons (.str "a") .nil)) .nil))).valid = true →
        (JSONList.cons (.str "a") .nil) ≠ JSONList.nil
          ∧ ((JSONList.cons (JSON.str "a") .nil).toList.map JSON.stringify).Nodup)
    ∧ ((predicate (.obj (.cons "eq"
          (.arr (.cons (.str "a") (.cons (.str "b") .nil))) .nil))).valid = true →
        ∃ a b, JSON.arr (.cons (.str "a") (.cons (.str "b") .nil))
            = JSON.arr (.cons (.str a) (.cons b .nil)) ∧ isRollOption a = true
          ∧ ((∃ s, b = JSON.str s ∧ isRollOption s = true) ∨ ∃ n, b = JSON.num n))
    ∧ (predicate (.obj (.cons "eq"
        (.arr (.cons (.str "a") (.cons (.str "b") .nil))) .nil))).valid = true
    ∧ (predicate (.obj (.cons "eq"
        (.arr (.cons (.str "a") (.cons (.str "a") (.cons (.str "a") .nil)))) .nil))).valid
        = false) :=
  predicate_combinator_comparison_shape "and" "eq" (.cons (.str "a") .nil)
    (.arr (.cons (.str "a") (.cons (.str "b") .nil))) (by decide) (by decide)
